import Mathlib

/-!
Formal model of the selection-and-scoring generation engine of the
`ogtool-content` repository (TypeScript), embedded shallowly in Lean 4.

Modelling conventions, applied uniformly:
* JavaScript numbers are modelled as exact rationals (`ℚ`); timestamps
  (epoch milliseconds) as integers (`ℤ`).
* `Date#getHours` and weekday extraction are modelled in UTC (timezone
  offset 0); the scored properties proved here do not depend on the offset.
* `Math.random()` draws are threaded explicitly as oracle inputs, one
  rational per draw, so the stochastic functions become deterministic
  functions of their random inputs.
* JavaScript objects used as string-keyed maps (`Record<string, T>`) are
  association lists `List (String × T)`; insertion of a fresh key appends,
  matching JS insertion-order iteration.
* `Array.prototype.sort` with a numeric comparator is a stable sort; it is
  modelled by a stable insertion sort with the comparator's `≤` relation.
-/

-- ============================================================================
-- Generic helpers (JS primitives)
-- ============================================================================

/-- Model of JS `Math.round`: round half toward positive infinity. -/
def jsRound (x : ℚ) : ℤ := ⌊x + 1/2⌋

/-- Model of `Math.round(x * 10) / 10` (round to one decimal place). -/
def roundTo1 (x : ℚ) : ℚ := (jsRound (x * 10) : ℚ) / 10

/-- Model of `Math.max(0, Math.min(10, x))`, the clamp ending every
dimension scorer. -/
def clamp10 (x : ℚ) : ℚ := max 0 (min 10 x)

/-- Model of JS `String.prototype.toLowerCase` (ASCII case mapping). -/
def jsToLower (s : String) : String := ⟨s.data.map Char.toLower⟩

/-- Substring search on character lists: the needle occurs contiguously in
the haystack (an empty needle always matches). -/
def containsSeq (needle : List Char) : List Char → Bool
  | [] => needle.isPrefixOf []
  | c :: rest => needle.isPrefixOf (c :: rest) || containsSeq needle rest

/-- Model of JS `String.prototype.includes` (substring containment). -/
def jsIncludes (s sub : String) : Bool := containsSeq sub.data s.data

/-- Model of a JS `\w` word character: `[A-Za-z0-9_]`. -/
def isWordChar (c : Char) : Bool :=
  (('a' ≤ c && c ≤ 'z') || ('A' ≤ c && c ≤ 'Z') || ('0' ≤ c && c ≤ '9') || c = '_')

/-- Model of a JS `\s` whitespace character (ASCII relevant subset). -/
def isWsChar (c : Char) : Bool :=
  (c = ' ' || c = '\t' || c = '\n' || c = '\r')

/-- Split on every separator character (each separator produces a cut). -/
def splitEvery (p : Char → Bool) (s : String) : List String :=
  (s.data.splitOnP p).map (fun l => ⟨l⟩)

/-- Model of JS `str.split(/\s+/)`: runs of whitespace collapse to one
separator, but a leading or trailing run still yields one empty field.
Derived from the single-character split by dropping interior empties. -/
def jsSplitWs (s : String) : List String :=
  let parts := splitEvery isWsChar s
  match parts with
  | [] => []
  | [a] => [a]
  | a :: rest =>
      let last := rest.getLastD a
      let middle := rest.dropLast
      a :: (middle.filter (· ≠ "")) ++ [last]

/-- Maximal runs of characters satisfying `p`, separators dropped; used to
model `\b word \b` regex membership tests. -/
def charRuns (p : Char → Bool) (l : List Char) : List String :=
  let step : Char → (Option (List Char) × List String) → Option (List Char) × List String :=
    fun c st =>
      match st with
      | (cur, done) =>
        if p c then (some (c :: cur.getD []), done)
        else (none, match cur with | some r => (⟨r⟩ : String) :: done | none => done)
  match l.foldr step (none, []) with
  | (some r, done) => (⟨r⟩ : String) :: done
  | (none, done) => done

/-- Word tokens (maximal `\w+` runs) of a string, used for `\b(w1|w2)\b`
regex tests: such a regex matches iff one alternative is a token. -/
def wordTokens (s : String) : List String := charRuns isWordChar s.data

/-- Model of the JS mean helper in `utils/similarity.ts`: 0 on empty input. -/
def jsMean (l : List ℚ) : ℚ := if l = [] then 0 else l.sum / l.length

/-- Model of the JS variance helper in `utils/similarity.ts`
(population variance about the mean; 0 on empty input). -/
def jsVariance (l : List ℚ) : ℚ := jsMean (l.map (fun x => (x - jsMean l)^2))

/-- Stable insertion into a sorted list: `x` goes in front of the first
element `y` with `le x y`, so earlier elements win ties. -/
def insertStable (le : α → α → Bool) (x : α) : List α → List α
  | [] => [x]
  | y :: ys => if le x y then x :: y :: ys else y :: insertStable le x ys

/-- Stable sort by `le` (model of JS `Array.prototype.sort` with a
consistent numeric comparator, which is required to be stable). -/
def stableSortBy (le : α → α → Bool) : List α → List α
  | [] => []
  | x :: xs => insertStable le x (stableSortBy le xs)

/-- Lexicographic comparison of strings by character code, the order JS
uses for `Array.prototype.sort()` of strings (UTF-16 units; ASCII here). -/
def charListLe : List Char → List Char → Bool
  | [], _ => true
  | _ :: _, [] => false
  | a :: as, b :: bs =>
      if a < b then true
      else if b < a then false
      else charListLe as bs

/-- String comparison wrapped over `charListLe`. -/
def jsStrLe (a b : String) : Bool := charListLe a.data b.data

/-- Decimal digits of a natural number, most significant first; the first
argument is fuel that dominates the number of divisions by 10. -/
def natDigitsAux : ℕ → ℕ → List ℕ
  | 0, _ => []
  | f + 1, n => if n < 10 then [n] else natDigitsAux f (n / 10) ++ [n % 10]

/-- Character of a decimal digit. -/
def digitChar : ℕ → Char
  | 0 => '0' | 1 => '1' | 2 => '2' | 3 => '3' | 4 => '4'
  | 5 => '5' | 6 => '6' | 7 => '7' | 8 => '8' | 9 => '9'
  | _ => 'x'

/-- Decimal string of a natural number (model of JS `${n}` for an integer
counter). Structurally recursive so the kernel can evaluate it. -/
def natRepr (n : ℕ) : String := ⟨(natDigitsAux (n + 1) n).map digitChar⟩

-- ============================================================================
-- Association-list helpers for Record<string, T>
-- ============================================================================

/-- Lookup in a string-keyed association list (JS `obj[key]`). -/
def alookup (m : List (String × α)) (k : String) : Option α :=
  (m.find? (fun e => e.1 = k)).map (·.2)

/-- Update the value at `k`, or append `(k, f dflt)` if absent: model of
the get-or-create-then-mutate idiom on a JS object. -/
def aupdate (m : List (String × α)) (k : String) (dflt : α) (f : α → α) :
    List (String × α) :=
  if (m.find? (fun e => e.1 = k)).isSome then
    m.map (fun e => if e.1 = k then (e.1, f e.2) else e)
  else
    m ++ [(k, f dflt)]

/-- Map over all values (JS `Object.values(m).forEach(mutate)`). -/
def amapValues (f : α → α) (m : List (String × α)) : List (String × α) :=
  m.map (fun e => (e.1, f e.2))

-- ============================================================================
-- Similarity utilities (src/lib/utils/similarity.ts)
-- ============================================================================

/-- Word list feeding `textToVector` and `jaccardSimilarity`: lowercase,
strip characters outside `[^\w\s]`, split on whitespace, keep words longer
than 2 characters. -/
def simWords (s : String) : List String :=
  (jsSplitWs ⟨(jsToLower s).data.filter (fun c => isWordChar c || isWsChar c)⟩).filter
    (fun w => w.length > 2)

/-- Dot product of the two word-frequency vectors of `textToVector`. -/
def wordDot (w1 w2 : List String) : ℕ :=
  (w1.dedup.map (fun w => w1.count w * w2.count w)).sum

/-- Sum of squared frequencies (the squared magnitude of `textToVector`). -/
def wordSumSq (w : List String) : ℕ :=
  (w.dedup.map (fun x => w.count x * w.count x)).sum

/-- Model of `cosineSimilarity(t1, t2) > 0.75` (the comparison used by
`checkTopicRepetition`).  The source computes
`dot / (√s1 · √s2)` and returns 0 when either magnitude is 0; since the
dot product is nonnegative, `dot/√(s1·s2) > 3/4  ↔  16·dot² > 9·s1·s2`,
which is the exact integer form used here. -/
def cosineGT75 (t1 t2 : String) : Bool :=
  let w1 := simWords t1
  let w2 := simWords t2
  let d := wordDot w1 w2
  let s1 := wordSumSq w1
  let s2 := wordSumSq w2
  (s1 ≠ 0 && s2 ≠ 0) && decide (16 * d * d > 9 * (s1 * s2))

/-- Model of `jaccardSimilarity` (exact rational). -/
def jaccardSimilarity (t1 t2 : String) : ℚ :=
  let set1 := (simWords t1).dedup
  let set2 := (simWords t2).dedup
  let inter := set1.filter (fun w => set2.contains w)
  let union := (set1 ++ set2).dedup
  if union.length = 0 then 0 else (inter.length : ℚ) / union.length

/-- Model of the predicate named in the specification for topic overlap:
`(cosineSimilarity t1 t2 + jaccardSimilarity t1 t2) / 2 ≥ 0.75`, the test
performed by `areTopicsSimilar(t1, t2, 0.75)`.  Writing `i`/`u` for the
intersection/union sizes of the word sets (`jaccard = i/u`, 0 when `u` is
0), the average is ≥ 3/4 iff `cosine ≥ (3u − 2i)/(2u)`; the right side is
positive because `jaccard ≤ 1`, and when a magnitude is 0 (so `cosine` is
0, and in particular whenever `u = 0`) the test fails.  Squaring the
remaining case gives the exact integer form below. -/
def combinedSimGE75 (t1 t2 : String) : Bool :=
  let w1 := simWords t1
  let w2 := simWords t2
  let d := wordDot w1 w2
  let s1 := wordSumSq w1
  let s2 := wordSumSq w2
  let set1 := w1.dedup
  let set2 := w2.dedup
  let inter := (set1.filter (fun w => set2.contains w)).length
  let union := ((set1 ++ set2).dedup).length
  if s1 = 0 || s2 = 0 then false
  else decide (4 * (d * d) * (union * union) ≥
    (3 * union - 2 * inter) * (3 * union - 2 * inter) * (s1 * s2))

-- ============================================================================
-- Data model (src/lib/core/types.ts)
-- ============================================================================

structure PostMetadata where
  topic : String
  intent : String
  targetEngagement : ℕ
  deriving Repr, DecidableEq

structure Post where
  post_id : String
  subreddit : String
  title : String
  body : String
  author_username : String
  timestamp : ℤ
  keyword_ids : List String
  metadata : PostMetadata
  deriving Repr, DecidableEq

structure CommentMetadata where
  role : String
  depth : ℕ
  deriving Repr, DecidableEq

structure Comment where
  comment_id : String
  post_id : String
  parent_comment_id : Option String
  comment_text : String
  username : String
  timestamp : ℤ
  metadata : CommentMetadata
  deriving Repr, DecidableEq

structure QualityFlag where
  severity : String
  category : String
  message : String
  recommendation : String
  deriving Repr, DecidableEq

structure QualityScore where
  overall : ℚ
  naturalness : ℚ
  distribution : ℚ
  consistency : ℚ
  diversity : ℚ
  timing : ℚ
  flags : List QualityFlag
  deriving Repr, DecidableEq

structure GenerationMeta where
  attempt : ℕ
  minQualityScore : ℚ
  deriving Repr, DecidableEq

structure CalendarMetadata where
  generatedAt : ℤ
  parameters : GenerationMeta
  deriving Repr, DecidableEq

structure WeeklyCalendar where
  weekId : String
  startDate : ℤ
  posts : List Post
  comments : List Comment
  qualityScore : QualityScore
  status : String
  metadata : CalendarMetadata
  deriving Repr, DecidableEq

structure PersonaQuota where
  postsAsOP : List ℤ
  postsAsCommenter : List ℤ
  lastUsed : ℤ
  consecutiveWeeks : ℕ
  deriving Repr, DecidableEq

structure SubredditQuota where
  postCount : List ℤ
  lastPosted : ℤ
  topicsUsed : List String
  deriving Repr, DecidableEq

structure KeywordQuota where
  usageCount : ℕ
  lastUsed : ℤ
  contexts : List String
  deriving Repr, DecidableEq

structure StateHistory where
  weeks : List WeeklyCalendar
  totalPosts : ℕ
  totalComments : ℕ
  deriving Repr, DecidableEq

structure StateQuotas where
  personaUsage : List (String × PersonaQuota)
  subredditUsage : List (String × SubredditQuota)
  keywordUsage : List (String × KeywordQuota)
  deriving Repr, DecidableEq

structure StatePatterns where
  personaPairings : List (String × ℕ)
  subredditRotation : List String
  timingPatterns : List ℚ
  deriving Repr, DecidableEq

structure QualityMetrics where
  averageNaturalnessScore : ℚ
  averagePersonaConsistency : ℚ
  averageDistributionBalance : ℚ
  weeklyScores : List ℚ
  deriving Repr, DecidableEq

structure StateStore where
  history : StateHistory
  quotas : StateQuotas
  patterns : StatePatterns
  qualityMetrics : QualityMetrics
  deriving Repr, DecidableEq

structure VoiceProfile where
  casualness : ℚ
  typoRate : ℚ
  authenticity : List (String × ℚ)
  deriving Repr, DecidableEq

structure Persona where
  username : String
  name : String
  role : String
  backstory : String
  painPoints : List String
  voiceProfile : VoiceProfile
  deriving Repr, DecidableEq

structure EngagementLevel where
  targetComments : ℕ
  targetDepth : ℕ
  opShouldRespond : Bool
  deriving Repr, DecidableEq

/-- Default persona quota used by the `||` fallbacks in the engines. -/
def emptyPersonaQuota : PersonaQuota :=
  { postsAsOP := [], postsAsCommenter := [], lastUsed := 0, consecutiveWeeks := 0 }

/-- Default subreddit quota used by the `||` fallbacks in the engines. -/
def emptySubredditQuota : SubredditQuota :=
  { postCount := [], lastPosted := 0, topicsUsed := [] }

/-- Default keyword quota used by the `||` fallbacks in the engines. -/
def emptyKeywordQuota : KeywordQuota :=
  { usageCount := 0, lastUsed := 0, contexts := [] }

-- ============================================================================
-- Constants (src/lib/core/constants.ts)
-- ============================================================================

/-- Dimension weights of `ALGORITHM_CONFIG.weights`. -/
def weightNaturalness : ℚ := 30/100
def weightDistribution : ℚ := 25/100
def weightConsistency : ℚ := 20/100
def weightDiversity : ℚ := 15/100
def weightTiming : ℚ := 10/100

/-- Thresholds of `ALGORITHM_CONFIG.thresholds`. -/
def minQualityScoreDefault : ℚ := 7
def maxRetries : ℕ := 5

/-- Flag severity thresholds (`FLAG_SEVERITY_THRESHOLDS`). -/
def distributionCritical : ℚ := 5
def distributionWarning : ℚ := 7
def naturalnessCritical : ℚ := 5
def naturalnessWarning : ℚ := 7
def consistencyWarning : ℚ := 8

/-- State retention limits (`STATE_RETENTION`). -/
def maxWeeksInHistory : ℕ := 12
def pruneThreshold : ℕ := 15

/-- Casual markers (`CASUAL_MARKERS`). -/
def CASUAL_MARKERS : List String :=
  ["lol", "tbh", "yea", "yeah", "sorta", "kinda", "gonna", "wanna", "idk"]

/-- Commenter-selection weights (`COMMENTER_SELECTION_WEIGHTS`). -/
def commenterWeightAuthenticity : ℚ := 60/100
def commenterWeightRestBonus : ℚ := 25/100
def commenterWeightPairingPenalty : ℚ := 15/100

/-- Engagement probabilities (`ENGAGEMENT_PROBABILITIES`). -/
def probOpResponds : ℚ := 70/100
def probAdditionalThread : ℚ := 50/100

/-- Engagement levels (`ENGAGEMENT_LEVELS`): (minComments, maxComments, weight). -/
def ENGAGEMENT_LEVELS : List (ℕ × ℕ × ℚ) :=
  [(2, 3, 50/100), (3, 4, 30/100), (4, 6, 20/100)]

/-- Activity levels of `SUBREDDIT_CULTURE_MAP` (the only culture field the
modelled code paths read). -/
def subredditActivityLevel : List (String × ℚ) :=
  [("r/PowerPoint", 70/100), ("r/GoogleSlides", 60/100), ("r/consulting", 80/100),
   ("r/marketing", 85/100), ("r/entrepreneur", 90/100), ("r/startups", 90/100),
   ("r/smallbusiness", 75/100), ("r/business", 80/100), ("r/productivity", 85/100),
   ("r/AskAcademia", 70/100), ("r/teachers", 75/100), ("r/education", 70/100),
   ("r/Canva", 80/100), ("r/ChatGPT", 95/100), ("r/ChatGPTPro", 85/100),
   ("r/ClaudeAI", 75/100), ("r/artificial", 80/100), ("r/design", 75/100),
   ("r/contentcreation", 70/100), ("r/presentations", 65/100)]

-- ============================================================================
-- Regex fragments used by the naturalness scorer
-- ============================================================================

/-- Segment of a regular expression as used by `checkKeywordForcing`:
a literal, a bounded any-character gap `.{lo,hi}`, an alternation of
literal words, or a word boundary `\b`. -/
inductive RSeg
  | lit (s : String)
  | gap (lo hi : ℕ)
  | alts (ws : List String)
  | wb
  deriving Repr

/-- Match a segment list at the start of `cs`; `prev` is the character just
before `cs` in the full text (for `\b`).  Gaps backtrack over all allowed
lengths; `.` does not match a newline. -/
def matchSegs : List RSeg → Option Char → List Char → Bool
  | [], _, _ => true
  | .lit s :: rest, prev, cs =>
      s.data.isPrefixOf cs &&
        matchSegs rest ((s.data.getLast?).orElse (fun _ => prev)) (cs.drop s.data.length)
  | .alts ws :: rest, prev, cs =>
      ws.any (fun w =>
        w.data.isPrefixOf cs &&
          matchSegs rest ((w.data.getLast?).orElse (fun _ => prev)) (cs.drop w.data.length))
  | .gap lo hi :: rest, prev, cs =>
      (List.range (hi + 1 - lo)).any (fun i =>
        let k := lo + i
        decide (k ≤ cs.length) && (cs.take k).all (· ≠ '\n') &&
          matchSegs rest (((cs.take k).getLast?).orElse (fun _ => prev)) (cs.drop k))
  | .wb :: rest, prev, cs =>
      (match prev with
       | none => true
       | some c => !isWordChar c) && matchSegs rest prev cs

/-- Unanchored regex search (model of `RegExp.prototype.test`): try to
match at every position, tracking the preceding character. -/
def rsearchAux (segs : List RSeg) : Option Char → List Char → Bool
  | prev, cs =>
      matchSegs segs prev cs ||
        (match cs with
         | [] => false
         | c :: rest => rsearchAux segs (some c) rest)

/-- Test a segment pattern against a string. -/
def rtest (segs : List RSeg) (s : String) : Bool := rsearchAux segs none s.data

/-- The five `forcedPatterns` of `checkKeywordForcing`, lowercased (the
source regexes carry the `i` flag and are applied to lowercased text). -/
def forcedPatterns : List (List RSeg) :=
  [[.lit "what is the ", .alts ["best", "top"], .lit " ", .gap 1 40, .lit " for ",
    .gap 1 40, .lit "?"],
   [.lit "looking for ", .gap 1 30, .lit " tool that ", .gap 1 30, .lit " and ",
    .gap 1 30, .lit " and"],
   [.lit "need ", .gap 1 30, .lit " software ", .gap 1 30, .lit " solution"],
   [.lit "can you recommend ", .gap 1 30, .lit " for ", .gap 1 30, .lit " and ",
    .gap 1 30],
   [.wb, .alts ["best", "top", "leading", "premier"], .lit " ", .gap 1 20, .lit " ",
    .alts ["tool", "software", "solution", "platform"]]]

-- ============================================================================
-- Naturalness scoring (src/lib/scoring/naturalness.ts)
-- ============================================================================

/-- Trim model of JS `String.prototype.trim` (ASCII whitespace). -/
def jsTrim (s : String) : String :=
  ⟨((s.data.dropWhile isWsChar).reverse.dropWhile isWsChar).reverse⟩

/-- Test for the regex `/^[a-z]/`. -/
def startsLowerAlpha (s : String) : Bool :=
  match s.data with
  | [] => false
  | c :: _ => 'a' ≤ c && c ≤ 'z'

/-- Test for the regex `/[.!?]$/`. -/
def endsTerminalPunct (s : String) : Bool :=
  match s.data.getLast? with
  | none => false
  | some c => c = '.' || c = '!' || c = '?'

/-- Sentence-terminating punctuation class `[.!?]`. -/
def isSentencePunct (c : Char) : Bool := c = '.' || c = '!' || c = '?'

/-- Model of `checkForImperfections`: at least 2 of the 4 imperfection
signals are present across all post titles and comment texts. -/
def checkForImperfections (cal : WeeklyCalendar) : Bool :=
  let allText := cal.posts.map (·.title) ++ cal.comments.map (·.comment_text)
  let hasCasualLanguage :=
    allText.any (fun t => CASUAL_MARKERS.any (fun m => jsIncludes (jsToLower t) m))
  let hasLowercaseStarts := allText.any startsLowerAlpha
  let hasMissingPunctuation :=
    allText.any (fun t => decide (t.length > 10) && !endsTerminalPunct t)
  let hasInformalCaps :=
    allText.any (fun t =>
      (splitEvery isSentencePunct t).any (fun s =>
        decide ((jsTrim s).length > 0) && startsLowerAlpha (jsTrim s)))
  decide (2 ≤ ([hasCasualLanguage, hasLowercaseStarts, hasMissingPunctuation,
                hasInformalCaps].filter id).length)

/-- Model of `checkSentenceVariety`: normalized variance of title word
counts (variance 5 or more counts as full variety). -/
def checkSentenceVariety (cal : WeeklyCalendar) : ℚ :=
  let lengths : List ℚ := cal.posts.map (fun p => ((jsSplitWs p.title).length : ℚ))
  if lengths.length < 2 then 1 else min 1 (jsVariance lengths / 5)

/-- Formal connective words whose presence (as whole words, regex `\b`)
marks a comment as too formal. -/
def formalWords : List String :=
  ["furthermore", "moreover", "additionally", "consequently",
   "utilize", "implement", "facilitate"]

/-- Model of `checkCommentNaturalness`: a factor in [0,1] starting at 1 and
losing 0.2–0.3 per missing naturalness signal. -/
def checkCommentNaturalness (cal : WeeklyCalendar) : ℚ :=
  let comments := cal.comments.map (·.comment_text)
  if comments = [] then 8/10 else
  let hasShortAgreements := comments.any (fun c => c.length < 20)
  let hasCasualLanguage :=
    comments.any (fun c => CASUAL_MARKERS.any (fun m => jsIncludes (jsToLower c) m))
  let lengths : List ℚ := comments.map (fun c => (c.length : ℚ))
  let hasFormalLanguage :=
    comments.any (fun c => formalWords.any (fun w => (wordTokens (jsToLower c)).contains w))
  let score := (1 : ℚ) - (if hasShortAgreements then 0 else 2/10)
    - (if hasCasualLanguage then 0 else 3/10)
    - (if jsVariance lengths < 100 then 2/10 else 0)
    - (if hasFormalLanguage then 3/10 else 0)
  max 0 score

/-- Model of `checkKeywordForcing`: 0.8 per post matching a forced SEO
pattern, plus 0.3 per keyword id on posts carrying more than 3 keywords
(the 0.3 is added once per element of `keyword_ids`), capped at 3.0. -/
def checkKeywordForcing (cal : WeeklyCalendar) : ℚ :=
  let penalty := (cal.posts.map (fun post =>
    let combinedText := jsToLower post.title ++ " " ++ jsToLower post.body
    (if forcedPatterns.any (fun pat => rtest pat combinedText) then (8:ℚ)/10 else 0) +
      (if post.keyword_ids.length > 3 then (post.keyword_ids.length : ℚ) * 3/10 else 0))).sum
  min penalty 3

/-- Model of `scoreNaturalness`. -/
def scoreNaturalness (cal : WeeklyCalendar) : ℚ :=
  let imperfections := checkForImperfections cal
  let variety := checkSentenceVariety cal
  let commentNat := checkCommentNaturalness cal
  let forcing := checkKeywordForcing cal
  clamp10 (10 - (if imperfections then 0 else 3/2) - (if variety < 1/2 then 1 else 0)
    - (1 - commentNat) * 2 - forcing)

-- ============================================================================
-- Distribution scoring (src/lib/scoring/distribution.ts)
-- ============================================================================

/-- Occurrence counts of each distinct element (values of the JS counting
object; multiset of counts, order irrelevant to every consumer). -/
def countsOf (names : List String) : List ℕ :=
  names.dedup.map (fun u => names.count u)

/-- Model of `checkPersonaDistribution`: penalty 2.0 / 1.0 / 0 depending on
the max/min usage ratio over post-author and commenter appearances.  When
the positive-count list is empty JS `Math.min()` yields `Infinity` and no
penalty fires; that case maps to the `none` branch. -/
def checkPersonaDistribution (cal : WeeklyCalendar) : ℚ :=
  let names := cal.posts.map (·.author_username) ++ cal.comments.map (·.username)
  let counts := countsOf names
  if counts = [] then 0 else
  let mx := counts.foldr max 0
  match (counts.filter (0 < ·)).min? with
  | none => 0
  | some mn => if mx > mn * 3 then 2 else if mx > mn * 2 then 1 else 0

/-- Model of `checkSubredditDistribution`: hard 3.0 penalty as soon as any
subreddit carries more than one post of the batch. -/
def checkSubredditDistribution (cal : WeeklyCalendar) : ℚ :=
  if (countsOf (cal.posts.map (·.subreddit))).any (fun c => c > 1) then 3 else 0

/-- Model of `checkKeywordDistribution`: 1.0 penalty when any keyword id is
used at least 3 times in the batch. -/
def checkKeywordDistribution (cal : WeeklyCalendar) : ℚ :=
  if (countsOf (cal.posts.map (·.keyword_ids)).flatten).any (fun c => c ≥ 3) then 1 else 0

/-- Model of `scoreDistribution` (the `state` argument is accepted but not
read, as in the source). -/
def scoreDistribution (cal : WeeklyCalendar) (_state : StateStore) : ℚ :=
  clamp10 (10 - checkPersonaDistribution cal - checkSubredditDistribution cal
    - checkKeywordDistribution cal)

-- ============================================================================
-- Consistency scoring (src/lib/scoring/consistency.ts)
-- ============================================================================

/-- Model of `checkPersonaConsistency` for one persona: 0.3 if the mean
sentence length falls outside [5,30] words; 0.5 more when professional and
student register markers both appear in the persona's combined text. -/
def checkPersonaConsistency (cal : WeeklyCalendar) (username : String) : ℚ :=
  let allText :=
    ((cal.posts.filter (fun p => p.author_username = username)).map
        (fun p => p.title ++ " " ++ p.body) ++
      (cal.comments.filter (fun c => c.username = username)).map (·.comment_text)).filter
      (fun t => (jsTrim t).length > 0)
  if allText = [] then 0 else
  let sentenceLengths : List ℚ := allText.map (fun t =>
    jsMean (((splitEvery isSentencePunct t).filter
        (fun s => (jsTrim s).length > 0)).map
      (fun s => ((jsSplitWs (jsTrim s)).length : ℚ))))
  let avgLength := jsMean sentenceLengths
  let lengthPenalty : ℚ := if avgLength < 5 || avgLength > 30 then 3/10 else 0
  let professionalMarkers := ["optimize", "leverage", "utilize", "synergy"]
  let studentMarkers := ["dude", "literally", "like"]
  let hasProfessionalSpeak :=
    allText.any (fun t => professionalMarkers.any (fun m => jsIncludes (jsToLower t) m))
  let hasStudentSpeak :=
    allText.any (fun t => studentMarkers.any (fun m => jsIncludes (jsToLower t) m))
  lengthPenalty + (if hasProfessionalSpeak && hasStudentSpeak then 5/10 else 0)

/-- Model of `scoreConsistency`: 10 minus the per-persona penalties over
the distinct personas of the batch, clamped. -/
def scoreConsistency (cal : WeeklyCalendar) : ℚ :=
  let personas :=
    (cal.posts.map (·.author_username) ++ cal.comments.map (·.username)).dedup
  clamp10 (10 - (personas.map (fun u => checkPersonaConsistency cal u)).sum)

-- ============================================================================
-- Diversity scoring (src/lib/scoring/distribution.ts, second section)
-- ============================================================================

/-- Last `n` elements of a list (JS `slice(-n)`). -/
def takeRight (n : ℕ) (l : List α) : List α := l.drop (l.length - n)

/-- Model of `checkTopicRepetition`: 1.5 per ordered pair of a current post
topic and a topic from the last 4 retained weeks whose cosine similarity
exceeds 0.75 strictly, capped at 4.0; 0 when no history is retained. -/
def checkTopicRepetition (cal : WeeklyCalendar) (st : StateStore) : ℚ :=
  let recentWeeks := takeRight 4 st.history.weeks
  if recentWeeks = [] then 0 else
  let currentTopics := cal.posts.map (·.metadata.topic)
  let recentTopics := (recentWeeks.map (fun w => w.posts.map (·.metadata.topic))).flatten
  let penalty := (currentTopics.map (fun t =>
    ((recentTopics.filter (fun rt => cosineGT75 t rt)).length : ℚ) * (3/2))).sum
  min penalty 4

/-- Model of `checkSubredditRotation`: 2.0 per current subreddit found in
the last 6 rotation entries, capped at 3.0. -/
def checkSubredditRotation (cal : WeeklyCalendar) (st : StateStore) : ℚ :=
  let currentSubs := cal.posts.map (·.subreddit)
  let recentSubs := takeRight 6 st.patterns.subredditRotation
  if recentSubs = [] then 0 else
  min (((currentSubs.filter (fun s => recentSubs.contains s)).length : ℚ) * 2) 3

/-- Pair key `[a,b].sort().join('+')` for a post author and commenter. -/
def sortPairKey (a b : String) : String :=
  if jsStrLe a b then a ++ "+" ++ b else b ++ "+" ++ a

/-- Model of `extractPersonaPairings`: author+commenter pair keys over the
batch (commenters other than the post author). -/
def extractPersonaPairings (cal : WeeklyCalendar) : List String :=
  (cal.posts.map (fun post =>
    (((cal.comments.filter (fun c => c.post_id = post.post_id)).map (·.username)).filter
        (fun u => u ≠ post.author_username)).map
      (fun commenter => sortPairKey post.author_username commenter))).flatten

/-- Model of `checkPairingRepetition`: 1.0 per current pairing whose
historical count is at least 2, capped at 2.0. -/
def checkPairingRepetition (cal : WeeklyCalendar) (st : StateStore) : ℚ :=
  let pairings := extractPersonaPairings cal
  min ((pairings.filter
    (fun pr => (alookup st.patterns.personaPairings pr).getD 0 ≥ 2)).length : ℚ) 2

/-- Model of `scoreDiversity`. -/
def scoreDiversity (cal : WeeklyCalendar) (st : StateStore) : ℚ :=
  clamp10 (10 - checkTopicRepetition cal st - checkSubredditRotation cal st
    - checkPairingRepetition cal st)

-- ============================================================================
-- Timing scoring (src/lib/scoring/timing.ts)
-- ============================================================================

/-- Comments of a post sorted chronologically (stable, as JS sort). -/
def postCommentsSorted (cal : WeeklyCalendar) (post : Post) : List Comment :=
  stableSortBy (fun a b => decide (a.timestamp ≤ b.timestamp))
    (cal.comments.filter (fun c => c.post_id = post.post_id))

/-- Consecutive differences of a timestamp list divided by `unit`
(exact rational division, as JS float division of millisecond values). -/
def consecGaps (ts : List ℤ) (unit : ℚ) : List ℚ :=
  (ts.zip ts.tail).map (fun ab => (((ab.2 - ab.1 : ℤ) : ℚ)) / unit)

/-- Model of `checkCommentGaps`: per post, 1.5 when at least two gaps have
variance below 4, plus 0.5 per gap outside [5,40] minutes; capped at 3. -/
def checkCommentGaps (cal : WeeklyCalendar) : ℚ :=
  let penalty := (cal.posts.map (fun post =>
    let cs := postCommentsSorted cal post
    if cs.length < 2 then 0 else
    let gaps := consecGaps (cs.map (·.timestamp)) 60000
    (if gaps.length ≥ 2 && decide (jsVariance gaps < 4) then (3:ℚ)/2 else 0) +
      ((gaps.filter (fun g => g < 5 || g > 40)).length : ℚ) * (1/2))).sum
  min penalty 3

/-- Weekday index of an epoch-millisecond timestamp with Sunday = 0
(1 Jan 1970 was a Thursday, index 4); local time modelled as UTC. -/
def dayIdx (ms : ℤ) : ℤ := (ms.fdiv 86400000 + 4).emod 7

/-- Weekend test (`Saturday` or `Sunday`). -/
def isWeekend (ms : ℤ) : Bool := dayIdx ms = 6 || dayIdx ms = 0

/-- Model of `Date#getHours` with local time modelled as UTC. -/
def jsGetHours (ms : ℤ) : ℤ := (ms.fdiv 3600000).emod 24

/-- Model of `checkPostDistribution`: 2.0 when weekend posts exceed 20% of
the batch, plus 1.5 per consecutive pair of sorted post timestamps less
than one hour apart; capped at 3. -/
def checkPostDistribution (cal : WeeklyCalendar) : ℚ :=
  let weekendCount := (cal.posts.filter (fun p => isWeekend p.timestamp)).length
  let weekendPenalty : ℚ :=
    if (weekendCount : ℚ) > (cal.posts.length : ℚ) * (2/10) then 2 else 0
  let timestamps := stableSortBy (fun a b => decide (a ≤ b)) (cal.posts.map (·.timestamp))
  let hourDiffs := consecGaps timestamps 3600000
  min (weekendPenalty + ((hourDiffs.filter (fun h => h < 1)).length : ℚ) * (3/2)) 3

/-- Model of `checkSuspiciousHours`: 1.5 per post and 0.5 per comment
falling in the 02:00–06:00 window; capped at 2. -/
def checkSuspiciousHours (cal : WeeklyCalendar) : ℚ :=
  let inWindow := fun (ms : ℤ) => decide (2 ≤ jsGetHours ms) && decide (jsGetHours ms < 6)
  min (((cal.posts.filter (fun p => inWindow p.timestamp)).length : ℚ) * (3/2) +
    ((cal.comments.filter (fun c => inWindow c.timestamp)).length : ℚ) * (1/2)) 2

/-- Model of `scoreTiming`. -/
def scoreTiming (cal : WeeklyCalendar) : ℚ :=
  clamp10 (10 - checkCommentGaps cal - checkPostDistribution cal
    - checkSuspiciousHours cal)

-- ============================================================================
-- Quality scorer (src/lib/scoring/quality-scorer.ts)
-- ============================================================================

/-- Raw dimension scores handed to `detectQualityFlags` (unrounded). -/
structure DimScores where
  naturalness : ℚ
  distribution : ℚ
  consistency : ℚ
  diversity : ℚ
  timing : ℚ
  deriving Repr, DecidableEq

/-- Model of `hasRepeatedSubreddit`: some subreddit carries two posts. -/
def hasRepeatedSubreddit (cal : WeeklyCalendar) : Bool :=
  decide ((cal.posts.map (·.subreddit)).dedup.length < (cal.posts.map (·.subreddit)).length)

/-- Model of `hasSuspiciousTiming`: some post with more than one comment
has at least two inter-comment gaps whose standard deviation is below 2;
`stdDev < 2` is stated as `variance < 4` (both sides are nonnegative). -/
def hasSuspiciousTiming (cal : WeeklyCalendar) : Bool :=
  cal.posts.any (fun post =>
    let cs := postCommentsSorted cal post
    decide (cs.length > 1) &&
      (let gaps := consecGaps (cs.map (·.timestamp)) 60000
       decide (gaps.length ≥ 2) && decide (jsVariance gaps < 4)))

/-- Model of `detectQualityFlags`: the flag pushes of the source in order,
as a concatenation of conditional singletons. -/
def detectQualityFlags (cal : WeeklyCalendar) (scores : DimScores) : List QualityFlag :=
  (if scores.distribution < distributionCritical then
    [⟨"critical", "distribution", "Severe imbalance in persona/subreddit usage",
      "Regenerate with stricter distribution constraints"⟩] else []) ++
  (if scores.naturalness < naturalnessCritical then
    [⟨"critical", "naturalness", "Language appears highly manufactured",
      "Increase naturalness transformations and add more imperfections"⟩] else []) ++
  (if scores.naturalness < naturalnessWarning ∧ scores.naturalness ≥ naturalnessCritical then
    [⟨"warning", "naturalness", "Language may seem manufactured",
      "Review keyword integration and add more casual language"⟩] else []) ++
  (if scores.distribution < distributionWarning ∧ scores.distribution ≥ distributionCritical then
    [⟨"warning", "distribution", "Some imbalance in persona/subreddit distribution",
      "Check for repeated subreddits or overused personas"⟩] else []) ++
  (if scores.consistency < consistencyWarning then
    [⟨"warning", "consistency", "Some persona voice inconsistencies detected",
      "Review persona-specific language patterns"⟩] else []) ++
  (if hasRepeatedSubreddit cal then
    [⟨"warning", "distribution", "Multiple posts to same subreddit in one week",
      "Spread posts across different subreddits"⟩] else []) ++
  (if hasSuspiciousTiming cal then
    [⟨"info", "timing", "Comment timing patterns may look automated",
      "Increase randomness in comment gaps"⟩] else []) ++
  (if scores.diversity < 7 then
    [⟨"info", "diversity", "Some topic or subreddit repetition from recent weeks",
      "Review recent calendars for overlap"⟩] else [])

/-- Weighted aggregate of the five raw dimension scores, rounded to one
decimal, exactly as computed in `scoreWeeklyCalendar`. -/
def overallOf (n d c dv t : ℚ) : ℚ :=
  roundTo1 (n * weightNaturalness + d * weightDistribution + c * weightConsistency
    + dv * weightDiversity + t * weightTiming)

/-- Model of `scoreWeeklyCalendar`: raw dimensions feed the aggregate and
the flag detector; all reported values are rounded to one decimal. -/
def scoreWeeklyCalendar (cal : WeeklyCalendar) (st : StateStore) : QualityScore :=
  let n := scoreNaturalness cal
  let d := scoreDistribution cal st
  let c := scoreConsistency cal
  let dv := scoreDiversity cal st
  let t := scoreTiming cal
  { overall := overallOf n d c dv t
    naturalness := roundTo1 n
    distribution := roundTo1 d
    consistency := roundTo1 c
    diversity := roundTo1 dv
    timing := roundTo1 t
    flags := detectQualityFlags cal ⟨n, d, c, dv, t⟩ }

/-- Model of `meetsQualityThreshold`. -/
def meetsQualityThreshold (score : QualityScore) (threshold : ℚ) : Bool :=
  decide (score.overall ≥ threshold) && !(score.flags.any (fun f => f.severity = "critical"))

-- ============================================================================
-- Random primitives as oracle-driven functions (src/lib/utils/random.ts)
-- ============================================================================

/-- Model of `randomBoolean(p)`: `Math.random() < p` with the draw `u`
supplied as an oracle input (`u` ranges over [0,1)). -/
def randomBoolean (p u : ℚ) : Bool := decide (u < p)

/-- Model of `randomInt(lo, hi)` = `Math.floor(Math.random()*(hi-lo+1))+lo`
with the draw `u` supplied; for `u ∈ [0,1)` and `lo ≤ hi` the result lies
in `[lo, hi]`. -/
def randomIntModel (lo hi : ℕ) (u : ℚ) : ℕ := lo + (⌊u * ((hi : ℚ) - lo + 1)⌋).toNat

/-- Model of `randomMinutes` (an alias of `randomInt` in the source). -/
def randomMinutesModel (lo hi : ℕ) (u : ℚ) : ℕ := randomIntModel lo hi u

/-- Model of `weightedRandomSelect` without an exclusion list (the only
form the comment engine uses): walk the options subtracting weights from
`u · totalWeight` until it drops to 0 or below; the last option is the
fallback. -/
def weightedSelect (options : List (α × ℚ)) (dflt : α) (u : ℚ) : α :=
  let total := (options.map (·.2)).sum
  let rec go : ℚ → List (α × ℚ) → α
    | _, [] => ((options.getLast?).map (·.1)).getD dflt
    | r, (v, w) :: rest => if r - w ≤ 0 then v else go (r - w) rest
  go (u * total) options

/-- Model of `generateId(prefix, counter)` with a counter supplied (the
only form used on the generation paths). -/
def generateId (pre : String) (counter : ℕ) : String := pre ++ natRepr counter

-- ============================================================================
-- Post engine: persona rest bonus (src/lib/engines/post-engine.ts)
-- ============================================================================

/-- Model of `calculateRestBonus`: idle-day bonuses checked first (14, 7,
3 days); only a persona idle less than 3 days can receive the −0.3
consecutive-weeks penalty.  `now` models `Date.now()`. -/
def calculateRestBonus (usage : PersonaQuota) (now : ℤ) : ℚ :=
  let daysSinceLastUse : ℚ := ((now - usage.lastUsed : ℤ) : ℚ) / (1000 * 60 * 60 * 24)
  if daysSinceLastUse ≥ 14 then 1
  else if daysSinceLastUse ≥ 7 then 6/10
  else if daysSinceLastUse ≥ 3 then 3/10
  else if usage.consecutiveWeeks ≥ 3 then -(3/10)
  else 0

-- ============================================================================
-- Comment engine (src/lib/engines/comment-engine.ts)
-- ============================================================================

/-- Random draws consumed while processing one post: one rational per
`Math.random()` call on that post's path, in source order. -/
structure PostRand where
  uEngage : ℚ
  uLevel : ℚ
  uTargetComments : ℚ
  uDepth : ℚ
  uOpResponds : ℚ
  uAdditional : ℚ
  uT1 : ℚ
  uT2 : ℚ
  uT3 : ℚ
  uT4 : ℚ
  deriving Repr

/-- Model of the JS `x || dflt` fallback on an optional number: the
default fires when the value is absent or equals 0. -/
def jsNumOr (v : Option ℚ) (dflt : ℚ) : ℚ :=
  match v with
  | some x => if x = 0 then dflt else x
  | none => dflt

/-- Model of `shouldHaveEngagement` given the random draw `u`. -/
def shouldHaveEngagement (post : Post) (st : StateStore) (u : ℚ) : Bool :=
  let baseEngagementProb := jsNumOr (alookup subredditActivityLevel post.subreddit) (7/10)
  let qualityBoost : ℚ := if post.keyword_ids.length > 1 then 15/100 else 0
  let recentComments := ((takeRight 2 st.history.weeks).map (·.comments)).flatten.length
  let balanceBoost : ℚ := if recentComments < 10 then 2/10 else 0
  randomBoolean (min (baseEngagementProb + qualityBoost + balanceBoost) (98/100)) u

/-- Model of `determineEngagementLevel` given this post's random draws. -/
def determineEngagementLevel (r : PostRand) : EngagementLevel :=
  let selected :=
    weightedSelect (ENGAGEMENT_LEVELS.map (fun e => ((e.1, e.2.1), e.2.2))) (2, 3) r.uLevel
  { targetComments := randomIntModel selected.1 selected.2 r.uTargetComments
    targetDepth := randomIntModel 1 3 r.uDepth
    opShouldRespond := randomBoolean probOpResponds r.uOpResponds }

/-- Model of `calculateCommenterAuthenticity`. -/
def calculateCommenterAuthenticity (persona : Persona) (post : Post) : ℚ :=
  let postText := jsToLower (post.title ++ " " ++ post.body)
  let hasRelevantPainPoint := persona.painPoints.any (fun pp =>
    (jsSplitWs (jsToLower pp)).any (fun word =>
      decide (word.length > 4) && jsIncludes postText word))
  let subredditAuth := jsNumOr (alookup persona.voiceProfile.authenticity post.subreddit) (5/10)
  if hasRelevantPainPoint then min (subredditAuth + 2/10) 1 else subredditAuth * (8/10)

/-- Model of `calculateCommenterRestBonus` (`now` models `Date.now()`). -/
def calculateCommenterRestBonus (usage : PersonaQuota) (now : ℤ) : ℚ :=
  let sevenDaysAgo := now - 7 * 24 * 60 * 60 * 1000
  let recentComments := (usage.postsAsCommenter.filter (fun ts => ts > sevenDaysAgo)).length
  if recentComments = 0 then 3/10
  else if recentComments = 1 then 15/100
  else 0

/-- Model of `calculatePairingPenalty`. -/
def calculatePairingPenalty (opUsername commenterUsername : String) (st : StateStore) : ℚ :=
  let pairingCount :=
    (alookup st.patterns.personaPairings (sortPairKey opUsername commenterUsername)).getD 0
  if pairingCount > 2 then 3/10
  else if pairingCount > 1 then 15/100
  else 0

/-- Model of `selectCommenters`: score the personas other than the OP,
sort descending by score (stable) and take the target number. -/
def selectCommenters (post : Post) (personas : List Persona) (level : EngagementLevel)
    (st : StateStore) (now : ℤ) : List Persona :=
  let availablePersonas := personas.filter (fun p => p.username ≠ post.author_username)
  let scored := availablePersonas.map (fun persona =>
    let usage := (alookup st.quotas.personaUsage persona.username).getD emptyPersonaQuota
    let authenticity := calculateCommenterAuthenticity persona post
    let restBonus := calculateCommenterRestBonus usage now
    let pairingPenalty := calculatePairingPenalty post.author_username persona.username st
    (persona,
      authenticity * commenterWeightAuthenticity + restBonus * commenterWeightRestBonus
        - pairingPenalty * commenterWeightPairingPenalty))
  let numCommenters := min level.targetComments availablePersonas.length
  ((stableSortBy (fun a b => decide (a.2 ≥ b.2)) scored).take numCommenters).map (·.1)

/-- Model of `createInitialComment`. -/
def createInitialComment (post : Post) (commenter : Persona) (counter : ℕ) (u : ℚ) : Comment :=
  { comment_id := generateId "C" counter
    post_id := post.post_id
    parent_comment_id := none
    comment_text := ""
    username := commenter.username
    timestamp := post.timestamp + (randomMinutesModel 8 25 u : ℤ) * 60000
    metadata := { role := "initial_response", depth := 0 } }

/-- Model of `createAgreementComment`. -/
def createAgreementComment (post : Post) (parentComment : Comment) (commenter : Persona)
    (counter : ℕ) (u : ℚ) : Comment :=
  { comment_id := generateId "C" counter
    post_id := post.post_id
    parent_comment_id := some parentComment.comment_id
    comment_text := ""
    username := commenter.username
    timestamp := parentComment.timestamp + (randomMinutesModel 10 20 u : ℤ) * 60000
    metadata := { role := "agreement", depth := 1 } }

/-- Model of `createOPEngagement`. -/
def createOPEngagement (post : Post) (parentComment : Comment) (opUsername : String)
    (counter : ℕ) (u : ℚ) : Comment :=
  { comment_id := generateId "C" counter
    post_id := post.post_id
    parent_comment_id := some parentComment.comment_id
    comment_text := ""
    username := opUsername
    timestamp := parentComment.timestamp + (randomMinutesModel 8 18 u : ℤ) * 60000
    metadata := { role := "op_engagement", depth := parentComment.metadata.depth + 1 } }

/-- Model of `createAdditionalComment` (a parallel unparented thread). -/
def createAdditionalComment (post : Post) (commenter : Persona) (counter : ℕ) (u : ℚ) :
    Comment :=
  { comment_id := generateId "C" counter
    post_id := post.post_id
    parent_comment_id := none
    comment_text := ""
    username := commenter.username
    timestamp := post.timestamp + (randomMinutesModel 20 40 u : ℤ) * 60000
    metadata := { role := "addition", depth := 0 } }

/-- Model of `generateCommentThread`: the fixed interaction pattern.  The
counter increments once per created comment, starting at `startCounter`. -/
def generateCommentThread (post : Post) (commenters : List Persona)
    (level : EngagementLevel) (startCounter : ℕ) (r : PostRand) : List Comment :=
  match commenters with
  | [] => []
  | firstCommenter :: rest =>
      let firstComment := createInitialComment post firstCommenter startCounter r.uT1
      let tailAndNext : List Comment × ℕ :=
        match rest with
        | secondCommenter :: _ =>
            let secondComment :=
              createAgreementComment post firstComment secondCommenter (startCounter + 1) r.uT2
            if level.opShouldRespond then
              ([secondComment,
                createOPEngagement post secondComment post.author_username
                  (startCounter + 2) r.uT3], startCounter + 3)
            else ([secondComment], startCounter + 2)
        | [] =>
            if level.opShouldRespond then
              ([createOPEngagement post firstComment post.author_username
                  (startCounter + 1) r.uT3], startCounter + 2)
            else ([], startCounter + 1)
      let base := firstComment :: tailAndNext.1
      match commenters.drop 2 with
      | additionalCommenter :: _ =>
          if randomBoolean probAdditionalThread r.uAdditional then
            base ++ [createAdditionalComment post additionalCommenter tailAndNext.2 r.uT4]
          else base
      | [] => base

/-- Worker loop of `generateComments`: walks the posts threading the
running comment counter; `rand i` yields the draws for the i-th post. -/
def generateCommentsAux (personas : List Persona) (st : StateStore) (rand : ℕ → PostRand)
    (now : ℤ) : List Post → ℕ → ℕ → List Comment
  | [], _, _ => []
  | post :: rest, idx, counter =>
      if shouldHaveEngagement post st (rand idx).uEngage then
        let level := determineEngagementLevel (rand idx)
        let commenters := selectCommenters post personas level st now
        let thread := generateCommentThread post commenters level counter (rand idx)
        thread ++ generateCommentsAux personas st rand now rest (idx + 1) (counter + thread.length)
      else
        generateCommentsAux personas st rand now rest (idx + 1) counter

/-- Model of `generateComments`: comment counter starts at 1. -/
def generateComments (posts : List Post) (personas : List Persona) (st : StateStore)
    (rand : ℕ → PostRand) (now : ℤ) : List Comment :=
  generateCommentsAux personas st rand now posts 0 1

-- ============================================================================
-- State manager (state-manager.ts, StateManager methods as pure functions)
-- ============================================================================

/-- Model of `StateManager.updatePersonaQuotas`. -/
def updatePersonaQuotas (st : StateStore) (cal : WeeklyCalendar) : StateStore :=
  let q1 := cal.posts.foldl (fun m post =>
    aupdate m post.author_username emptyPersonaQuota (fun q =>
      { q with postsAsOP := q.postsAsOP ++ [post.timestamp]
               lastUsed := max q.lastUsed post.timestamp })) st.quotas.personaUsage
  let q2 := cal.comments.foldl (fun m c =>
    aupdate m c.username emptyPersonaQuota (fun q =>
      { q with postsAsCommenter := q.postsAsCommenter ++ [c.timestamp]
               lastUsed := max q.lastUsed c.timestamp })) q1
  let usedPersonas := cal.posts.map (·.author_username) ++ cal.comments.map (·.username)
  let q3 := q2.map (fun e =>
    if usedPersonas.contains e.1 then
      (e.1, { e.2 with consecutiveWeeks := e.2.consecutiveWeeks + 1 })
    else
      (e.1, { e.2 with consecutiveWeeks := 0 }))
  { st with quotas := { st.quotas with personaUsage := q3 } }

/-- Model of `StateManager.updateSubredditQuotas`. -/
def updateSubredditQuotas (st : StateStore) (cal : WeeklyCalendar) : StateStore :=
  let q := cal.posts.foldl (fun m post =>
    aupdate m post.subreddit emptySubredditQuota (fun sq =>
      { sq with postCount := sq.postCount ++ [post.timestamp]
                lastPosted := max sq.lastPosted post.timestamp
                topicsUsed := sq.topicsUsed ++ [post.metadata.topic] })) st.quotas.subredditUsage
  { st with quotas := { st.quotas with subredditUsage := q } }

/-- Model of `StateManager.updateKeywordQuotas`. -/
def updateKeywordQuotas (st : StateStore) (cal : WeeklyCalendar) : StateStore :=
  let q := cal.posts.foldl (fun m post =>
    post.keyword_ids.foldl (fun m2 keywordId =>
      aupdate m2 keywordId emptyKeywordQuota (fun kq =>
        { kq with usageCount := kq.usageCount + 1
                  lastUsed := max kq.lastUsed post.timestamp
                  contexts := kq.contexts ++ [post.title] })) m) st.quotas.keywordUsage
  { st with quotas := { st.quotas with keywordUsage := q } }

/-- Model of `StateManager.updatePatterns`. -/
def updatePatterns (st : StateStore) (cal : WeeklyCalendar) : StateStore :=
  let pairings := cal.posts.foldl (fun m post =>
    (cal.comments.filter (fun c => c.post_id = post.post_id)).foldl (fun m2 c =>
      if c.username ≠ post.author_username then
        aupdate m2 (sortPairKey post.author_username c.username) 0 (· + 1)
      else m2) m) st.patterns.personaPairings
  let rotation := st.patterns.subredditRotation ++ cal.posts.map (·.subreddit)
  let timing := st.patterns.timingPatterns ++
    (cal.posts.map (fun post =>
      consecGaps ((postCommentsSorted cal post).map (·.timestamp)) 60000)).flatten
  { st with patterns :=
      { personaPairings := pairings, subredditRotation := rotation, timingPatterns := timing } }

/-- Model of `StateManager.updateQualityMetrics` (runs after the calendar
was pushed into history, so `totalWeeks ≥ 1`). -/
def updateQualityMetrics (st : StateStore) (cal : WeeklyCalendar) : StateStore :=
  let qs := cal.qualityScore
  let totalWeeks : ℚ := (st.history.weeks.length : ℚ)
  { st with qualityMetrics :=
      { averageNaturalnessScore :=
          (st.qualityMetrics.averageNaturalnessScore * (totalWeeks - 1) + qs.naturalness)
            / totalWeeks
        averagePersonaConsistency :=
          (st.qualityMetrics.averagePersonaConsistency * (totalWeeks - 1) + qs.consistency)
            / totalWeeks
        averageDistributionBalance :=
          (st.qualityMetrics.averageDistributionBalance * (totalWeeks - 1) + qs.distribution)
            / totalWeeks
        weeklyScores := st.qualityMetrics.weeklyScores ++ [qs.overall] } }

/-- The 60-day retention cutoff used by `pruneOldData`. -/
def sixtyDaysAgo (now : ℤ) : ℤ := now - 60 * 24 * 60 * 60 * 1000

/-- Model of `StateManager.pruneOldData` (`now` models `Date.now()`). -/
def pruneOldData (st : StateStore) (now : ℤ) : StateStore :=
  let weeks :=
    if st.history.weeks.length > pruneThreshold then
      takeRight maxWeeksInHistory st.history.weeks
    else st.history.weeks
  let cutoff := sixtyDaysAgo now
  let personaUsage := amapValues (fun q =>
    { q with postsAsOP := q.postsAsOP.filter (fun ts => ts > cutoff)
             postsAsCommenter := q.postsAsCommenter.filter (fun ts => ts > cutoff) })
    st.quotas.personaUsage
  let subredditUsage := amapValues (fun q =>
    { q with postCount := q.postCount.filter (fun ts => ts > cutoff)
             topicsUsed :=
               if q.topicsUsed.length > 10 then takeRight 10 q.topicsUsed
               else q.topicsUsed }) st.quotas.subredditUsage
  let keywordUsage := amapValues (fun q =>
    { q with contexts :=
               if q.contexts.length > 20 then takeRight 20 q.contexts
               else q.contexts }) st.quotas.keywordUsage
  let rotation :=
    if st.patterns.subredditRotation.length > 50 then
      takeRight 50 st.patterns.subredditRotation
    else st.patterns.subredditRotation
  let timing :=
    if st.patterns.timingPatterns.length > 100 then
      takeRight 100 st.patterns.timingPatterns
    else st.patterns.timingPatterns
  { st with
      history := { st.history with weeks := weeks }
      quotas := { personaUsage := personaUsage, subredditUsage := subredditUsage,
                  keywordUsage := keywordUsage }
      patterns := { st.patterns with subredditRotation := rotation, timingPatterns := timing } }

/-- Model of `StateManager.updateStateWithCalendar`: push into history,
update all quotas, patterns and metrics, then prune; the returned store is
what `saveState` persists. -/
def updateStateWithCalendar (st : StateStore) (cal : WeeklyCalendar) (now : ℤ) : StateStore :=
  let st1 := { st with history :=
    { weeks := st.history.weeks ++ [cal]
      totalPosts := st.history.totalPosts + cal.posts.length
      totalComments := st.history.totalComments + cal.comments.length } }
  let st2 := updatePersonaQuotas st1 cal
  let st3 := updateSubredditQuotas st2 cal
  let st4 := updateKeywordQuotas st3 cal
  let st5 := updatePatterns st4 cal
  let st6 := updateQualityMetrics st5 cal
  pruneOldData st6 now

-- ============================================================================
-- Retry controller (src/lib/core/calendar-generator.ts)
-- ============================================================================

/-- Terminal error of `generateWeeklyCalendar`
(`CalendarGenerationError` with code `GENERATION_FAILED`). -/
inductive GenError
  | generationFailed
  deriving Repr, DecidableEq

/-- Phase 6 of `generateCalendarAttempt`: attach the quality score
computed against the run's state to a constructed calendar. -/
def scoredAttempt (cal : WeeklyCalendar) (st : StateStore) : WeeklyCalendar :=
  { cal with qualityScore := scoreWeeklyCalendar cal st }

/-- The retry loop of `generateWeeklyCalendar` over the outcomes of the
individual attempts (`none` = the attempt threw during construction,
`some cal` = the attempt completed with `cal` already scored).  The
best-so-far calendar is updated on a strictly larger overall score before
the acceptance check; acceptance short-circuits. -/
def generateWeeklyCalendarLoop (minQ : ℚ) :
    List (Option WeeklyCalendar) → ℚ → Option WeeklyCalendar →
      Except GenError WeeklyCalendar
  | [], _, best =>
      match best with
      | some c => .ok c
      | none => .error .generationFailed
  | none :: rest, bestScore, best => generateWeeklyCalendarLoop minQ rest bestScore best
  | some cal :: rest, bestScore, best =>
      let tracked : ℚ × Option WeeklyCalendar :=
        if cal.qualityScore.overall > bestScore then (cal.qualityScore.overall, some cal)
        else (bestScore, best)
      if meetsQualityThreshold cal.qualityScore minQ then .ok cal
      else generateWeeklyCalendarLoop minQ rest tracked.1 tracked.2

/-- Model of `generateWeeklyCalendar`: run the loop with best score 0 and
no best calendar. -/
def generateWeeklyCalendar (attempts : List (Option WeeklyCalendar)) (minQ : ℚ) :
    Except GenError WeeklyCalendar :=
  generateWeeklyCalendarLoop minQ attempts 0 none

/-- Model of `generateAndSaveCalendar`: on success the accepted calendar
is committed through `updateStateWithCalendar`; on the terminal error the
state is returned untouched ( `saveCalendar` is never reached). -/
def generateAndSaveCalendar (attempts : List (Option WeeklyCalendar)) (minQ : ℚ)
    (st : StateStore) (now : ℤ) : Except GenError WeeklyCalendar × StateStore :=
  match generateWeeklyCalendar attempts minQ with
  | .error e => (.error e, st)
  | .ok cal => (.ok cal, updateStateWithCalendar st cal now)

-- ============================================================================
-- Derived definitions and fixtures used by the verification
-- ============================================================================

/-- Placeholder quality score a calendar carries before phase 6 scores it
(the zero-filled initializer of `generateCalendarAttempt`). -/
def placeholderQualityScore : QualityScore :=
  { overall := 0, naturalness := 0, distribution := 0, consistency := 0,
    diversity := 0, timing := 0, flags := [] }

/-- Empty state store (the initializer of the storage adapters). -/
def emptyStateStore : StateStore :=
  { history := { weeks := [], totalPosts := 0, totalComments := 0 }
    quotas := { personaUsage := [], subredditUsage := [], keywordUsage := [] }
    patterns := { personaPairings := [], subredditRotation := [], timingPatterns := [] }
    qualityMetrics := { averageNaturalnessScore := 0, averagePersonaConsistency := 0,
                        averageDistributionBalance := 0, weeklyScores := [] } }

/-- Minimal post fixture parameterized by id, subreddit and topic. -/
def mkFixturePost (pid sub topic : String) : Post :=
  { post_id := pid, subreddit := sub, title := "", body := "", author_username := "u1",
    timestamp := 0, keyword_ids := [],
    metadata := { topic := topic, intent := "direct_question", targetEngagement := 2 } }

/-- Minimal calendar fixture around a post list. -/
def mkFixtureCal (wid : String) (posts : List Post) : WeeklyCalendar :=
  { weekId := wid, startDate := 0, posts := posts, comments := [],
    qualityScore := placeholderQualityScore, status := "draft",
    metadata := { generatedAt := 0, parameters := { attempt := 1, minQualityScore := 7 } } }

/-- State fixture whose history holds exactly one prior week with one post
on the given topic. -/
def mkPriorState (topic : String) : StateStore :=
  { emptyStateStore with history :=
      { weeks := [mkFixtureCal "w0" [mkFixturePost "P0" "r/marketing" topic]]
        totalPosts := 1, totalComments := 0 } }

/-- Number of (current topic, retained prior topic) ordered pairs whose
cosine similarity strictly exceeds 0.75 — the pairs `checkTopicRepetition`
penalizes. -/
def topicOverlapCount (cal : WeeklyCalendar) (st : StateStore) : ℕ :=
  ((cal.posts.map (·.metadata.topic)).map (fun t =>
    ((((takeRight 4 st.history.weeks).map (fun w =>
        w.posts.map (·.metadata.topic))).flatten).filter
      (fun rt => cosineGT75 t rt)).length)).sum

/-- Best-so-far tracking of the retry loop in isolation: fold the
completed calendars over the (bestScore, best) pair, updating on a
strictly larger overall score. -/
def foldBest : ℚ → Option WeeklyCalendar → List WeeklyCalendar → Option WeeklyCalendar
  | _, best, [] => best
  | bs, best, c :: rest =>
      if c.qualityScore.overall > bs then foldBest c.qualityScore.overall (some c) rest
      else foldBest bs best rest

/-- Scored calendar fixture used by the retry-controller witnesses. -/
def mkScoredCal (wid : String) (ov : ℚ) : WeeklyCalendar :=
  { mkFixtureCal wid [] with qualityScore := { placeholderQualityScore with overall := ov } }

/-- The five-attempt example of the specification: aggregates
6.5, 6.8, 6.2, 6.9, 6.7 against threshold 7.0. -/
def exampleAttempts : List (Option WeeklyCalendar) :=
  [some (mkScoredCal "a1" (65/10)), some (mkScoredCal "a2" (68/10)),
   some (mkScoredCal "a3" (62/10)), some (mkScoredCal "a4" (69/10)),
   some (mkScoredCal "a5" (67/10))]

/-- Value of a most-significant-first decimal digit list. -/
def digitsVal (l : List ℕ) : ℕ := l.foldl (fun a d => 10 * a + d) 0


-- ============================================================================
-- Generic lemmas about the numeric helpers
-- ============================================================================

theorem clamp10_nonneg (x : ℚ) : 0 ≤ clamp10 x := le_max_left 0 _

theorem clamp10_le_ten (x : ℚ) : clamp10 x ≤ 10 := by
  unfold clamp10
  exact max_le (by norm_num) (min_le_left _ _)

theorem clamp10_le_of_le {x c : ℚ} (hc : 0 ≤ c) (h : x ≤ c) : clamp10 x ≤ c := by
  unfold clamp10
  exact max_le hc (le_trans (min_le_right _ _) h)

theorem le_clamp10_of_le {x c : ℚ} (hc : c ≤ 10) (h : c ≤ x) : c ≤ clamp10 x := by
  unfold clamp10
  exact le_trans (le_min hc h) (le_max_right _ _)

theorem clamp10_eq_self {x : ℚ} (h0 : 0 ≤ x) (h10 : x ≤ 10) : clamp10 x = x := by
  unfold clamp10
  rw [min_eq_right h10, max_eq_right h0]

theorem roundTo1_mono {x y : ℚ} (h : x ≤ y) : roundTo1 x ≤ roundTo1 y := by
  unfold roundTo1 jsRound
  have : (⌊x * 10 + 1/2⌋ : ℤ) ≤ ⌊y * 10 + 1/2⌋ := by
    apply Int.floor_le_floor
    nlinarith
  have hq : ((⌊x * 10 + 1/2⌋ : ℤ) : ℚ) ≤ ((⌊y * 10 + 1/2⌋ : ℤ) : ℚ) := by exact_mod_cast this
  linarith

theorem roundTo1_int (n : ℤ) : roundTo1 (n : ℚ) = n := by
  unfold roundTo1 jsRound
  have : (⌊(n : ℚ) * 10 + 1/2⌋ : ℤ) = 10 * n := by
    rw [Int.floor_eq_iff]
    constructor
    · push_cast; linarith
    · push_cast; linarith
  rw [this]; push_cast; ring

theorem roundTo1_nonneg {x : ℚ} (h : 0 ≤ x) : 0 ≤ roundTo1 x := by
  have := roundTo1_mono h
  rwa [show ((0:ℚ) = ((0:ℤ) : ℚ)) by norm_num, roundTo1_int 0] at this

theorem roundTo1_le_ten {x : ℚ} (h : x ≤ 10) : roundTo1 x ≤ 10 := by
  have := roundTo1_mono h
  rwa [show ((10:ℚ) = ((10:ℤ) : ℚ)) by norm_num, roundTo1_int 10] at this

theorem roundTo1_le_seven {x : ℚ} (h : x ≤ 7) : roundTo1 x ≤ 7 := by
  have := roundTo1_mono h
  rwa [show ((7:ℚ) = ((7:ℤ) : ℚ)) by norm_num, roundTo1_int 7] at this

-- ============================================================================
-- Bounds of the dimension scorers
-- ============================================================================

theorem scoreNaturalness_bounds (cal : WeeklyCalendar) :
    0 ≤ scoreNaturalness cal ∧ scoreNaturalness cal ≤ 10 := by
  unfold scoreNaturalness
  exact ⟨clamp10_nonneg _, clamp10_le_ten _⟩

theorem scoreDistribution_bounds (cal : WeeklyCalendar) (st : StateStore) :
    0 ≤ scoreDistribution cal st ∧ scoreDistribution cal st ≤ 10 := by
  unfold scoreDistribution
  exact ⟨clamp10_nonneg _, clamp10_le_ten _⟩

theorem scoreConsistency_bounds (cal : WeeklyCalendar) :
    0 ≤ scoreConsistency cal ∧ scoreConsistency cal ≤ 10 := by
  unfold scoreConsistency
  exact ⟨clamp10_nonneg _, clamp10_le_ten _⟩

theorem scoreDiversity_bounds (cal : WeeklyCalendar) (st : StateStore) :
    0 ≤ scoreDiversity cal st ∧ scoreDiversity cal st ≤ 10 := by
  unfold scoreDiversity
  exact ⟨clamp10_nonneg _, clamp10_le_ten _⟩

theorem scoreTiming_bounds (cal : WeeklyCalendar) :
    0 ≤ scoreTiming cal ∧ scoreTiming cal ≤ 10 := by
  unfold scoreTiming
  exact ⟨clamp10_nonneg _, clamp10_le_ten _⟩

-- ============================================================================
-- C2: the aggregate is the weighted sum rounded to one decimal
-- ============================================================================

/-- C2: for every tuple of five dimension scores the reported aggregate
equals the weighted sum with weights 0.30/0.25/0.20/0.15/0.10 rounded to
one decimal; dimension scores (9, 8, 8, 7, 8) yield aggregate 8.2; and the
overall field of `scoreWeeklyCalendar` is exactly this aggregation of the
five raw dimension scores. -/
theorem aggregate_is_weighted_sum_rounded :
    (∀ n d c dv t : ℚ, overallOf n d c dv t =
        roundTo1 (n * (30/100) + d * (25/100) + c * (20/100) + dv * (15/100) +
          t * (10/100))) ∧
    overallOf 9 8 8 7 8 = 82/10 ∧
    ∀ cal st, (scoreWeeklyCalendar cal st).overall =
      overallOf (scoreNaturalness cal) (scoreDistribution cal st) (scoreConsistency cal)
        (scoreDiversity cal st) (scoreTiming cal) := by
  refine ⟨fun n d c dv t => rfl, ?_, fun cal st => rfl⟩
  unfold overallOf roundTo1 jsRound weightNaturalness weightDistribution weightConsistency
    weightDiversity weightTiming
  norm_num

-- ============================================================================
-- C8: every reported score lies in [0, 10]
-- ============================================================================

/-- C8: for every batch and state, each of the five reported dimension
scores and the reported aggregate of `scoreWeeklyCalendar` lies in the
closed interval [0, 10]. -/
theorem dimension_and_overall_scores_bounded (cal : WeeklyCalendar) (st : StateStore) :
    (0 ≤ (scoreWeeklyCalendar cal st).naturalness ∧
      (scoreWeeklyCalendar cal st).naturalness ≤ 10) ∧
    (0 ≤ (scoreWeeklyCalendar cal st).distribution ∧
      (scoreWeeklyCalendar cal st).distribution ≤ 10) ∧
    (0 ≤ (scoreWeeklyCalendar cal st).consistency ∧
      (scoreWeeklyCalendar cal st).consistency ≤ 10) ∧
    (0 ≤ (scoreWeeklyCalendar cal st).diversity ∧
      (scoreWeeklyCalendar cal st).diversity ≤ 10) ∧
    (0 ≤ (scoreWeeklyCalendar cal st).timing ∧
      (scoreWeeklyCalendar cal st).timing ≤ 10) ∧
    (0 ≤ (scoreWeeklyCalendar cal st).overall ∧
      (scoreWeeklyCalendar cal st).overall ≤ 10) := by
  obtain ⟨hn0, hn1⟩ := scoreNaturalness_bounds cal
  obtain ⟨hd0, hd1⟩ := scoreDistribution_bounds cal st
  obtain ⟨hc0, hc1⟩ := scoreConsistency_bounds cal
  obtain ⟨hv0, hv1⟩ := scoreDiversity_bounds cal st
  obtain ⟨ht0, ht1⟩ := scoreTiming_bounds cal
  have hproj : scoreWeeklyCalendar cal st =
      { overall := overallOf (scoreNaturalness cal) (scoreDistribution cal st)
          (scoreConsistency cal) (scoreDiversity cal st) (scoreTiming cal)
        naturalness := roundTo1 (scoreNaturalness cal)
        distribution := roundTo1 (scoreDistribution cal st)
        consistency := roundTo1 (scoreConsistency cal)
        diversity := roundTo1 (scoreDiversity cal st)
        timing := roundTo1 (scoreTiming cal)
        flags := detectQualityFlags cal ⟨scoreNaturalness cal, scoreDistribution cal st,
          scoreConsistency cal, scoreDiversity cal st, scoreTiming cal⟩ } := rfl
  rw [hproj]
  dsimp only
  refine ⟨⟨roundTo1_nonneg hn0, roundTo1_le_ten hn1⟩,
    ⟨roundTo1_nonneg hd0, roundTo1_le_ten hd1⟩,
    ⟨roundTo1_nonneg hc0, roundTo1_le_ten hc1⟩,
    ⟨roundTo1_nonneg hv0, roundTo1_le_ten hv1⟩,
    ⟨roundTo1_nonneg ht0, roundTo1_le_ten ht1⟩, ?_, ?_⟩
  · apply roundTo1_nonneg
    unfold weightNaturalness weightDistribution weightConsistency weightDiversity weightTiming
    nlinarith
  · apply roundTo1_le_ten
    unfold weightNaturalness weightDistribution weightConsistency weightDiversity weightTiming
    nlinarith

-- ============================================================================
-- C9: rest bonus cases (corrected)
-- ============================================================================

/-- C9 counterexample: a persona with `consecutiveWeeks = 3` whose last
use was 4 days ago receives rest bonus 0.3 (the idle-day branch), not the
−0.3 the claim assigns to every persona with 3+ consecutive weeks. -/
theorem rest_bonus_consecutive_weeks_counterexample :
    calculateRestBonus
        { postsAsOP := [], postsAsCommenter := [], lastUsed := 0, consecutiveWeeks := 3 }
        (4 * 24 * 60 * 60 * 1000) = 3/10 ∧
      ((3 : ℚ)/10) ≠ -(3/10) := by
  constructor
  · unfold calculateRestBonus
    norm_num
  · norm_num

/-- C9 (amended): the idle-day thresholds are checked first (≥14d → 1.0,
≥7d → 0.6, ≥3d → 0.3); only a persona idle fewer than 3 days receives the
consecutive-weeks −0.3 (when `consecutiveWeeks ≥ 3`), and 0 otherwise. -/
theorem rest_bonus_priority_cases (usage : PersonaQuota) (now : ℤ) :
    (14 ≤ ((now - usage.lastUsed : ℤ) : ℚ) / (1000 * 60 * 60 * 24) →
      calculateRestBonus usage now = 1) ∧
    (7 ≤ ((now - usage.lastUsed : ℤ) : ℚ) / (1000 * 60 * 60 * 24) →
      ((now - usage.lastUsed : ℤ) : ℚ) / (1000 * 60 * 60 * 24) < 14 →
      calculateRestBonus usage now = 6/10) ∧
    (3 ≤ ((now - usage.lastUsed : ℤ) : ℚ) / (1000 * 60 * 60 * 24) →
      ((now - usage.lastUsed : ℤ) : ℚ) / (1000 * 60 * 60 * 24) < 7 →
      calculateRestBonus usage now = 3/10) ∧
    (((now - usage.lastUsed : ℤ) : ℚ) / (1000 * 60 * 60 * 24) < 3 →
      3 ≤ usage.consecutiveWeeks → calculateRestBonus usage now = -(3/10)) ∧
    (((now - usage.lastUsed : ℤ) : ℚ) / (1000 * 60 * 60 * 24) < 3 →
      usage.consecutiveWeeks < 3 → calculateRestBonus usage now = 0) := by
  unfold calculateRestBonus
  dsimp only
  refine ⟨fun h1 => ?_, fun h1 h2 => ?_, fun h1 h2 => ?_, fun h1 h2 => ?_, fun h1 h2 => ?_⟩ <;>
    split_ifs with ha hb hc hd <;> first | rfl | linarith | omega

/-- Witness for C9's amended theorem: a persona idle 1 day with
3 consecutive weeks of use gets −0.3. -/
theorem rest_bonus_priority_cases_witness :
    calculateRestBonus
        { postsAsOP := [], postsAsCommenter := [], lastUsed := 0, consecutiveWeeks := 3 }
        (24 * 60 * 60 * 1000) = -(3/10) := by
  have h := (rest_bonus_priority_cases
    { postsAsOP := [], postsAsCommenter := [], lastUsed := 0, consecutiveWeeks := 3 }
    (24 * 60 * 60 * 1000)).2.2.2.1
  apply h <;> norm_num

-- ============================================================================
-- C6: quota timestamps after a commit are within the 60-day window
-- ============================================================================

/-- C6: after committing any batch through `updateStateWithCalendar`
(which always ends in `pruneOldData`), every persona usage timestamp in
the posts-as-OP and posts-as-commenter lists is strictly newer than the
60-day cutoff, so any timestamp older than 60 days is absent. -/
theorem pruned_quota_timestamps_within_retention (st : StateStore) (cal : WeeklyCalendar)
    (now : ℤ) :
    ((updateStateWithCalendar st cal now).quotas.personaUsage.all (fun e =>
      e.2.postsAsOP.all (fun ts => decide (sixtyDaysAgo now < ts)) &&
        e.2.postsAsCommenter.all (fun ts => decide (sixtyDaysAgo now < ts)))) = true := by
  rw [List.all_eq_true]
  intro e he
  have he2 : e ∈ amapValues (fun q =>
      { q with postsAsOP := q.postsAsOP.filter (fun ts => ts > sixtyDaysAgo now)
               postsAsCommenter :=
                 q.postsAsCommenter.filter (fun ts => ts > sixtyDaysAgo now) })
      (updateQualityMetrics (updatePatterns (updateKeywordQuotas (updateSubredditQuotas
        (updatePersonaQuotas ({ st with history :=
          { weeks := st.history.weeks ++ [cal]
            totalPosts := st.history.totalPosts + cal.posts.length
            totalComments := st.history.totalComments + cal.comments.length } }) cal) cal)
        cal) cal) cal).quotas.personaUsage := he
  obtain ⟨a, _, rfl⟩ := List.mem_map.1 he2
  rw [Bool.and_eq_true, List.all_eq_true, List.all_eq_true]
  constructor
  · intro ts hts
    have := (List.mem_filter.1 hts).2
    simpa using this
  · intro ts hts
    have := (List.mem_filter.1 hts).2
    simpa using this

-- ============================================================================
-- C3: repeated subreddit forces distribution ≤ 7 and a distribution flag
-- ============================================================================

theorem not_nodup_dedup_length_lt {l : List String} (h : ¬ l.Nodup) :
    l.dedup.length < l.length := by
  rcases Nat.lt_or_ge l.dedup.length l.length with hlt | hge
  · exact hlt
  · exfalso
    apply h
    have hsub : l.dedup.Sublist l := List.dedup_sublist l
    have hlen : l.dedup.length = l.length := le_antisymm hsub.length_le hge
    have heq := hsub.eq_of_length hlen
    rw [← heq]
    exact l.nodup_dedup

theorem exists_count_gt_one {l : List String} (h : ¬ l.Nodup) :
    ∃ a ∈ l, 1 < l.count a := by
  by_contra hc
  push_neg at hc
  apply h
  rw [List.nodup_iff_count_le_one]
  intro a
  by_cases hmem : a ∈ l
  · exact hc a hmem
  · rw [List.count_eq_zero_of_not_mem hmem]
    omega

theorem checkPersonaDistribution_nonneg (cal : WeeklyCalendar) :
    0 ≤ checkPersonaDistribution cal := by
  unfold checkPersonaDistribution
  dsimp only
  split_ifs with h1
  · norm_num
  · split
    · norm_num
    · split_ifs <;> norm_num

theorem checkKeywordDistribution_nonneg (cal : WeeklyCalendar) :
    0 ≤ checkKeywordDistribution cal := by
  unfold checkKeywordDistribution
  split_ifs <;> norm_num

/-- C3: if two posts of a batch share a subreddit, the reported
distribution score is at most 7.0 (the hard −3.0 penalty applies) and the
batch's flag list contains a flag with category `distribution`. -/
theorem repeated_subreddit_distribution_penalty (cal : WeeklyCalendar) (st : StateStore)
    (hdup : ¬ (cal.posts.map (·.subreddit)).Nodup) :
    (scoreWeeklyCalendar cal st).distribution ≤ 7 ∧
      ∃ f ∈ (scoreWeeklyCalendar cal st).flags, f.category = "distribution" := by
  obtain ⟨a, ha, hcnt⟩ := exists_count_gt_one hdup
  have hany : ((countsOf (cal.posts.map (·.subreddit))).any (fun c => c > 1)) = true := by
    rw [List.any_eq_true]
    refine ⟨(cal.posts.map (·.subreddit)).count a,
      List.mem_map.2 ⟨a, List.mem_dedup.2 ha, rfl⟩, ?_⟩
    simpa using hcnt
  have hsub3 : checkSubredditDistribution cal = 3 := by
    unfold checkSubredditDistribution
    simp [hany]
  have hrs : hasRepeatedSubreddit cal = true := by
    unfold hasRepeatedSubreddit
    simpa using not_nodup_dedup_length_lt hdup
  constructor
  · show roundTo1 (scoreDistribution cal st) ≤ 7
    apply roundTo1_le_seven
    unfold scoreDistribution
    rw [hsub3]
    apply clamp10_le_of_le (by norm_num)
    have h1 := checkPersonaDistribution_nonneg cal
    have h2 := checkKeywordDistribution_nonneg cal
    linarith
  · show ∃ f ∈ detectQualityFlags cal ⟨scoreNaturalness cal, scoreDistribution cal st,
      scoreConsistency cal, scoreDiversity cal st, scoreTiming cal⟩, f.category = "distribution"
    refine ⟨⟨"warning", "distribution", "Multiple posts to same subreddit in one week",
      "Spread posts across different subreddits"⟩, ?_, rfl⟩
    unfold detectQualityFlags
    rw [hrs]
    simp

/-- Witness for C3: a batch with two posts in `r/startups` satisfies the
duplicate-subreddit hypothesis, so the distribution score is at most 7 and
a distribution flag is present. -/
theorem repeated_subreddit_distribution_penalty_witness :
    ¬ (((mkFixtureCal "w1" [mkFixturePost "P1" "r/startups" "t1",
          mkFixturePost "P2" "r/startups" "t2"]).posts.map (·.subreddit)).Nodup) ∧
    ((scoreWeeklyCalendar (mkFixtureCal "w1" [mkFixturePost "P1" "r/startups" "t1",
          mkFixturePost "P2" "r/startups" "t2"]) emptyStateStore).distribution ≤ 7 ∧
      ∃ f ∈ (scoreWeeklyCalendar (mkFixtureCal "w1" [mkFixturePost "P1" "r/startups" "t1",
          mkFixturePost "P2" "r/startups" "t2"]) emptyStateStore).flags,
        f.category = "distribution") :=
  ⟨by decide,
   repeated_subreddit_distribution_penalty _ _ (by decide)⟩

-- ============================================================================
-- C4: topic repetition uses cosine alone with a strict 0.75 bound
-- ============================================================================

theorem sum_map_mul_const {α : Type} (l : List α) (f : α → ℕ) (c : ℚ) :
    (l.map (fun x => ((f x : ℚ)) * c)).sum = (((l.map f).sum : ℕ) : ℚ) * c := by
  induction l with
  | nil => simp
  | cons a tl ih =>
      simp only [List.map_cons, List.sum_cons, ih]
      push_cast
      ring

theorem checkTopicRepetition_formula (cal : WeeklyCalendar) (st : StateStore) :
    checkTopicRepetition cal st =
      if takeRight 4 st.history.weeks = [] then 0
      else min ((topicOverlapCount cal st : ℚ) * (3/2)) 4 := by
  unfold checkTopicRepetition topicOverlapCount
  dsimp only
  split_ifs with h
  · rfl
  · congr 1
    exact sum_map_mul_const _ _ _

theorem topicOverlapCount_zero_of_no_history (cal : WeeklyCalendar) (st : StateStore)
    (h : takeRight 4 st.history.weeks = []) : topicOverlapCount cal st = 0 := by
  unfold topicOverlapCount
  rw [h]
  simp only [List.map_nil, List.flatten_nil, List.filter_nil, List.length_nil]
  exact List.sum_eq_zero (by simp)

theorem checkSubredditRotation_bounds (cal : WeeklyCalendar) (st : StateStore) :
    0 ≤ checkSubredditRotation cal st ∧ checkSubredditRotation cal st ≤ 3 := by
  unfold checkSubredditRotation
  dsimp only
  split_ifs
  · norm_num
  · constructor
    · apply le_min (by positivity) (by norm_num)
    · exact min_le_right _ _

theorem checkPairingRepetition_bounds (cal : WeeklyCalendar) (st : StateStore) :
    0 ≤ checkPairingRepetition cal st ∧ checkPairingRepetition cal st ≤ 2 := by
  unfold checkPairingRepetition
  constructor
  · apply le_min (by positivity) (by norm_num)
  · exact min_le_right _ _

theorem checkSubredditRotation_patterns_eq (cal : WeeklyCalendar) {st st' : StateStore}
    (hpat : st'.patterns = st.patterns) :
    checkSubredditRotation cal st' = checkSubredditRotation cal st := by
  unfold checkSubredditRotation
  rw [hpat]

theorem checkPairingRepetition_patterns_eq (cal : WeeklyCalendar) {st st' : StateStore}
    (hpat : st'.patterns = st.patterns) :
    checkPairingRepetition cal st' = checkPairingRepetition cal st := by
  unfold checkPairingRepetition
  rw [hpat]

/-- C4 counterexample: for topics `"aaa aaa aaa bbb"` and
`"aaa bbb bbb bbb"` the combined cosine+Jaccard similarity named by the
claim is ≥ 0.75 (cosine 0.6, Jaccard 1, average 0.8), yet the diversity
scorer — which compares cosine alone against a strict 0.75 — applies no
penalty: the topic-repetition penalty is 0 and the diversity score equals
that of the same batch against a prior week with a completely unrelated
topic. -/
theorem topic_similarity_claim_counterexample :
    combinedSimGE75 "aaa aaa aaa bbb" "aaa bbb bbb bbb" = true ∧
    checkTopicRepetition (mkFixtureCal "w1" [mkFixturePost "P1" "r/startups" "aaa aaa aaa bbb"])
      (mkPriorState "aaa bbb bbb bbb") = 0 ∧
    scoreDiversity (mkFixtureCal "w1" [mkFixturePost "P1" "r/startups" "aaa aaa aaa bbb"])
        (mkPriorState "aaa bbb bbb bbb") =
      scoreDiversity (mkFixtureCal "w1" [mkFixturePost "P1" "r/startups" "aaa aaa aaa bbb"])
        (mkPriorState "ccc ddd") := by
  have hcnt1 : topicOverlapCount
      (mkFixtureCal "w1" [mkFixturePost "P1" "r/startups" "aaa aaa aaa bbb"])
      (mkPriorState "aaa bbb bbb bbb") = 0 := by decide
  have hcnt2 : topicOverlapCount
      (mkFixtureCal "w1" [mkFixturePost "P1" "r/startups" "aaa aaa aaa bbb"])
      (mkPriorState "ccc ddd") = 0 := by decide
  have hne1 : ¬ (takeRight 4 (mkPriorState "aaa bbb bbb bbb").history.weeks = []) := by decide
  have hne2 : ¬ (takeRight 4 (mkPriorState "ccc ddd").history.weeks = []) := by decide
  have ht1 : checkTopicRepetition
      (mkFixtureCal "w1" [mkFixturePost "P1" "r/startups" "aaa aaa aaa bbb"])
      (mkPriorState "aaa bbb bbb bbb") = 0 := by
    rw [checkTopicRepetition_formula, if_neg hne1, hcnt1]
    norm_num
  have ht2 : checkTopicRepetition
      (mkFixtureCal "w1" [mkFixturePost "P1" "r/startups" "aaa aaa aaa bbb"])
      (mkPriorState "ccc ddd") = 0 := by
    rw [checkTopicRepetition_formula, if_neg hne2, hcnt2]
    norm_num
  have hpat : (mkPriorState "ccc ddd").patterns = (mkPriorState "aaa bbb bbb bbb").patterns := rfl
  refine ⟨by decide, ht1, ?_⟩
  unfold scoreDiversity
  rw [ht1, ht2, checkSubredditRotation_patterns_eq _ hpat, checkPairingRepetition_patterns_eq _ hpat]

/-- C4 (amended): the diversity scorer subtracts 1.5 per (current, prior)
topic pair whose cosine similarity alone strictly exceeds 0.75 (Jaccard is
not consulted and the bound is strict), capped at 4.0; consequently a
batch with at least one such cosine-overlapping pair scores at least 1.5
lower on diversity than the identical batch against a state with the same
patterns and no such pair. -/
theorem topic_repetition_cosine_only (cal : WeeklyCalendar) (st st' : StateStore)
    (hpat : st'.patterns = st.patterns)
    (h1 : 1 ≤ topicOverlapCount cal st)
    (h0 : topicOverlapCount cal st' = 0) :
    checkTopicRepetition cal st = min ((topicOverlapCount cal st : ℚ) * (3/2)) 4 ∧
    scoreDiversity cal st ≤ scoreDiversity cal st' - 3/2 := by
  have hne : ¬ (takeRight 4 st.history.weeks = []) := by
    intro he
    rw [topicOverlapCount_zero_of_no_history cal st he] at h1
    omega
  have hform : checkTopicRepetition cal st = min ((topicOverlapCount cal st : ℚ) * (3/2)) 4 := by
    rw [checkTopicRepetition_formula, if_neg hne]
  refine ⟨hform, ?_⟩
  have ht2 : checkTopicRepetition cal st' = 0 := by
    rw [checkTopicRepetition_formula, h0]
    split_ifs <;> norm_num
  have htlo : (3/2 : ℚ) ≤ checkTopicRepetition cal st := by
    rw [hform]
    apply le_min
    · have : (1 : ℚ) ≤ (topicOverlapCount cal st : ℚ) := by exact_mod_cast h1
      nlinarith
    · norm_num
  have hthi : checkTopicRepetition cal st ≤ 4 := by
    rw [hform]
    exact min_le_right _ _
  obtain ⟨hs0, hs3⟩ := checkSubredditRotation_bounds cal st
  obtain ⟨hp0, hp2⟩ := checkPairingRepetition_bounds cal st
  unfold scoreDiversity
  rw [ht2, checkSubredditRotation_patterns_eq _ hpat, checkPairingRepetition_patterns_eq _ hpat]
  rw [clamp10_eq_self (by linarith) (by linarith),
    clamp10_eq_self (by linarith) (by linarith)]
  linarith

/-- Witness for C4's amended theorem: a current topic identical to a
prior-week topic (cosine 1 > 0.75) scores 1.5 lower on diversity than the
same batch against an unrelated prior topic. -/
theorem topic_repetition_cosine_only_witness :
    checkTopicRepetition (mkFixtureCal "w1" [mkFixturePost "P1" "r/startups" "xxx yyy"])
        (mkPriorState "xxx yyy") =
      min ((topicOverlapCount (mkFixtureCal "w1" [mkFixturePost "P1" "r/startups" "xxx yyy"])
        (mkPriorState "xxx yyy") : ℚ) * (3/2)) 4 ∧
    scoreDiversity (mkFixtureCal "w1" [mkFixturePost "P1" "r/startups" "xxx yyy"])
        (mkPriorState "xxx yyy") ≤
      scoreDiversity (mkFixtureCal "w1" [mkFixturePost "P1" "r/startups" "xxx yyy"])
        (mkPriorState "qqq www") - 3/2 :=
  topic_repetition_cosine_only _ _ _ rfl (by decide) (by decide)

-- ============================================================================
-- Retry controller lemmas
-- ============================================================================

theorem filterMap_id_cons_none {α : Type} (rest : List (Option α)) :
    (none :: rest).filterMap id = rest.filterMap id := rfl

theorem filterMap_id_cons_some {α : Type} (a : α) (rest : List (Option α)) :
    (some a :: rest).filterMap id = a :: rest.filterMap id := rfl

theorem foldBest_cons (bs : ℚ) (best : Option WeeklyCalendar) (c : WeeklyCalendar)
    (rest : List WeeklyCalendar) :
    foldBest bs best (c :: rest) =
      if c.qualityScore.overall > bs then foldBest c.qualityScore.overall (some c) rest
      else foldBest bs best rest := rfl

theorem generateWeeklyCalendarLoop_no_accept (minQ : ℚ) :
    ∀ (l : List (Option WeeklyCalendar)) (bs : ℚ) (best : Option WeeklyCalendar),
    (∀ cal ∈ l.filterMap id, meetsQualityThreshold cal.qualityScore minQ = false) →
    generateWeeklyCalendarLoop minQ l bs best =
      match foldBest bs best (l.filterMap id) with
      | some c => Except.ok c
      | none => Except.error GenError.generationFailed := by
  intro l
  induction l with
  | nil =>
      intro bs best _
      cases best <;> rfl
  | cons a rest ih =>
      intro bs best h
      cases a with
      | none =>
          rw [filterMap_id_cons_none]
          exact ih bs best (by
            intro cal hcal
            exact h cal (by rwa [filterMap_id_cons_none]))
      | some cal0 =>
          have hm : meetsQualityThreshold cal0.qualityScore minQ = false := by
            apply h
            rw [filterMap_id_cons_some]
            exact List.mem_cons_self _ _
          have hrest : ∀ cal ∈ rest.filterMap id,
              meetsQualityThreshold cal.qualityScore minQ = false := by
            intro cal hcal
            apply h
            rw [filterMap_id_cons_some]
            exact List.mem_cons_of_mem _ hcal
          rw [filterMap_id_cons_some]
          show (let tracked : ℚ × Option WeeklyCalendar :=
                  if cal0.qualityScore.overall > bs then (cal0.qualityScore.overall, some cal0)
                  else (bs, best)
                if meetsQualityThreshold cal0.qualityScore minQ = true then Except.ok cal0
                else generateWeeklyCalendarLoop minQ rest tracked.1 tracked.2) = _
          rw [hm]
          by_cases hgt : cal0.qualityScore.overall > bs
          · simp only [if_pos hgt, Bool.false_eq_true, if_false]
            rw [ih _ _ hrest, foldBest_cons, if_pos hgt]
          · simp only [if_neg hgt, Bool.false_eq_true, if_false]
            rw [ih _ _ hrest, foldBest_cons, if_neg hgt]

theorem foldBest_spec :
    ∀ (l : List WeeklyCalendar) (bs : ℚ) (best : Option WeeklyCalendar),
    (∀ b, best = some b → b.qualityScore.overall = bs) →
    (foldBest bs best l = best ∧ ∀ x ∈ l, x.qualityScore.overall ≤ bs) ∨
    (∃ c, foldBest bs best l = some c ∧ c ∈ l ∧ bs ≤ c.qualityScore.overall ∧
      ∀ x ∈ l, x.qualityScore.overall ≤ c.qualityScore.overall) := by
  intro l
  induction l with
  | nil =>
      intro bs best _
      left
      exact ⟨rfl, by simp⟩
  | cons c0 rest ih =>
      intro bs best hb
      by_cases hgt : c0.qualityScore.overall > bs
      · have hstep : foldBest bs best (c0 :: rest) =
            foldBest c0.qualityScore.overall (some c0) rest := by
          rw [foldBest_cons, if_pos hgt]
        rcases ih c0.qualityScore.overall (some c0)
            (by intro b hbeq; cases hbeq; rfl) with ⟨heq, hall⟩ | ⟨c, heq, hmem, hle, hall⟩
        · right
          refine ⟨c0, by rw [hstep, heq], List.mem_cons_self _ _, le_of_lt hgt, ?_⟩
          intro x hx
          rcases List.mem_cons.1 hx with rfl | hx
          · exact le_refl _
          · exact hall x hx
        · right
          refine ⟨c, by rw [hstep, heq], List.mem_cons_of_mem _ hmem,
            le_trans (le_of_lt hgt) hle, ?_⟩
          intro x hx
          rcases List.mem_cons.1 hx with rfl | hx
          · exact hle
          · exact hall x hx
      · have hstep : foldBest bs best (c0 :: rest) = foldBest bs best rest := by
          rw [foldBest_cons, if_neg hgt]
        push_neg at hgt
        rcases ih bs best hb with ⟨heq, hall⟩ | ⟨c, heq, hmem, hle, hall⟩
        · left
          refine ⟨by rw [hstep, heq], ?_⟩
          intro x hx
          rcases List.mem_cons.1 hx with rfl | hx
          · exact hgt
          · exact hall x hx
        · right
          refine ⟨c, by rw [hstep, heq], List.mem_cons_of_mem _ hmem, hle, ?_⟩
          intro x hx
          rcases List.mem_cons.1 hx with rfl | hx
          · exact le_trans hgt hle
          · exact hall x hx

theorem generateWeeklyCalendarLoop_first_accepted (minQ : ℚ) :
    ∀ (l : List (Option WeeklyCalendar)) (bs : ℚ) (best : Option WeeklyCalendar)
      (i : ℕ) (cal : WeeklyCalendar),
    l[i]? = some (some cal) →
    meetsQualityThreshold cal.qualityScore minQ = true →
    (∀ j cal', j < i → l[j]? = some (some cal') →
      meetsQualityThreshold cal'.qualityScore minQ = false) →
    generateWeeklyCalendarLoop minQ l bs best = Except.ok cal := by
  intro l
  induction l with
  | nil =>
      intro bs best i cal hget
      simp at hget
  | cons a rest ih =>
      intro bs best i cal hget hmeet hbefore
      cases i with
      | zero =>
          rw [List.getElem?_cons_zero] at hget
          obtain rfl : a = some cal := by injection hget
          show (let tracked : ℚ × Option WeeklyCalendar :=
                  if cal.qualityScore.overall > bs then (cal.qualityScore.overall, some cal)
                  else (bs, best)
                if meetsQualityThreshold cal.qualityScore minQ = true then Except.ok cal
                else generateWeeklyCalendarLoop minQ rest tracked.1 tracked.2) = _
          rw [hmeet]
          simp
      | succ i =>
          rw [List.getElem?_cons_succ] at hget
          cases a with
          | none =>
              exact ih bs best i cal hget hmeet (by
                intro j cal' hj hgj
                exact hbefore (j + 1) cal' (by omega)
                  (by rwa [List.getElem?_cons_succ]))
          | some cal0 =>
              have hm0 : meetsQualityThreshold cal0.qualityScore minQ = false :=
                hbefore 0 cal0 (by omega) (by rw [List.getElem?_cons_zero])
              show (let tracked : ℚ × Option WeeklyCalendar :=
                      if cal0.qualityScore.overall > bs then (cal0.qualityScore.overall, some cal0)
                      else (bs, best)
                    if meetsQualityThreshold cal0.qualityScore minQ = true then Except.ok cal0
                    else generateWeeklyCalendarLoop minQ rest tracked.1 tracked.2) = _
              rw [hm0]
              simp only [Bool.false_eq_true, if_false]
              exact ih _ _ i cal hget hmeet (by
                intro j cal' hj hgj
                exact hbefore (j + 1) cal' (by omega)
                  (by rwa [List.getElem?_cons_succ]))

-- ============================================================================
-- Positivity of every scored attempt's aggregate
-- ============================================================================

theorem checkCommentNaturalness_nonneg (cal : WeeklyCalendar) :
    0 ≤ checkCommentNaturalness cal := by
  unfold checkCommentNaturalness
  dsimp only
  split_ifs <;> first | norm_num | exact le_max_left 0 _

theorem checkKeywordForcing_le_three (cal : WeeklyCalendar) :
    checkKeywordForcing cal ≤ 3 := by
  unfold checkKeywordForcing
  exact min_le_right _ _

theorem scoreNaturalness_ge (cal : WeeklyCalendar) : 5/2 ≤ scoreNaturalness cal := by
  have hcn := checkCommentNaturalness_nonneg cal
  have hf := checkKeywordForcing_le_three cal
  unfold scoreNaturalness
  dsimp only
  apply le_clamp10_of_le (by norm_num)
  split_ifs <;> nlinarith

theorem scoreWeeklyCalendar_overall_pos (cal : WeeklyCalendar) (st : StateStore) :
    0 < (scoreWeeklyCalendar cal st).overall := by
  have hn := scoreNaturalness_ge cal
  obtain ⟨hd0, _⟩ := scoreDistribution_bounds cal st
  obtain ⟨hc0, _⟩ := scoreConsistency_bounds cal
  obtain ⟨hv0, _⟩ := scoreDiversity_bounds cal st
  obtain ⟨ht0, _⟩ := scoreTiming_bounds cal
  show (0 : ℚ) < overallOf (scoreNaturalness cal) (scoreDistribution cal st)
    (scoreConsistency cal) (scoreDiversity cal st) (scoreTiming cal)
  have hraw : (3/4 : ℚ) ≤ scoreNaturalness cal * weightNaturalness +
      scoreDistribution cal st * weightDistribution +
      scoreConsistency cal * weightConsistency +
      scoreDiversity cal st * weightDiversity + scoreTiming cal * weightTiming := by
    unfold weightNaturalness weightDistribution weightConsistency weightDiversity weightTiming
    nlinarith
  have hr : roundTo1 (3/4 : ℚ) ≤ overallOf (scoreNaturalness cal) (scoreDistribution cal st)
      (scoreConsistency cal) (scoreDiversity cal st) (scoreTiming cal) :=
    roundTo1_mono hraw
  have h34 : roundTo1 (3/4 : ℚ) = 8/10 := by
    unfold roundTo1 jsRound
    norm_num
  rw [h34] at hr
  linarith

-- ============================================================================
-- Loop behavior for all-failed and some-succeeded attempt lists
-- ============================================================================

theorem generateWeeklyCalendarLoop_all_none (minQ : ℚ) :
    ∀ (l : List (Option WeeklyCalendar)), (∀ a ∈ l, a = none) → ∀ bs : ℚ,
    generateWeeklyCalendarLoop minQ l bs none = Except.error GenError.generationFailed := by
  intro l
  induction l with
  | nil => intro _ bs; rfl
  | cons a rest ih =>
      intro h bs
      have ha : a = none := h a (List.mem_cons_self _ _)
      subst ha
      exact ih (fun x hx => h x (List.mem_cons_of_mem _ hx)) bs

theorem generateWeeklyCalendarLoop_ok_of_pos (minQ : ℚ) :
    ∀ (l : List (Option WeeklyCalendar)) (bs : ℚ) (best : Option WeeklyCalendar),
    (0 < bs → best.isSome = true) →
    ((∃ cal, (some cal) ∈ l ∧ 0 < cal.qualityScore.overall) ∨ best.isSome = true) →
    ∃ c, generateWeeklyCalendarLoop minQ l bs best = Except.ok c := by
  intro l
  induction l with
  | nil =>
      intro bs best _ hdisj
      rcases hdisj with ⟨cal, hmem, _⟩ | hsome
      · simp at hmem
      · obtain ⟨b, rfl⟩ := Option.isSome_iff_exists.1 hsome
        exact ⟨b, rfl⟩
  | cons a rest ih =>
      intro bs best hinv hdisj
      cases a with
      | none =>
          apply ih bs best hinv
          rcases hdisj with ⟨cal, hmem, hpos⟩ | hsome
          · rcases List.mem_cons.1 hmem with heq | hmem
            · exact absurd heq.symm (by simp)
            · exact Or.inl ⟨cal, hmem, hpos⟩
          · exact Or.inr hsome
      | some cal0 =>
          show ∃ c, (let tracked : ℚ × Option WeeklyCalendar :=
                  if cal0.qualityScore.overall > bs then (cal0.qualityScore.overall, some cal0)
                  else (bs, best)
                if meetsQualityThreshold cal0.qualityScore minQ = true then Except.ok cal0
                else generateWeeklyCalendarLoop minQ rest tracked.1 tracked.2) = Except.ok c
          by_cases hmeet : meetsQualityThreshold cal0.qualityScore minQ = true
          · exact ⟨cal0, by rw [hmeet]; simp⟩
          · rw [if_neg hmeet]
            by_cases hgt : cal0.qualityScore.overall > bs
            · rw [if_pos hgt]
              apply ih
              · intro _; rfl
              · exact Or.inr rfl
            · rw [if_neg hgt]
              apply ih bs best hinv
              rcases hdisj with ⟨cal, hmem, hpos⟩ | hsome
              · rcases List.mem_cons.1 hmem with heq | hmem
                · have : cal = cal0 := by injection heq
                  subst this
                  push_neg at hgt
                  exact Or.inr (hinv (lt_of_lt_of_le hpos hgt))
                · exact Or.inl ⟨cal, hmem, hpos⟩
              · exact Or.inr hsome

-- ============================================================================
-- C1: first accepted attempt wins, else best completed attempt
-- ============================================================================

/-- C1: over a run of the retry controller with up to 5 attempts whose
completed calendars all carry a positive aggregate (which every calendar
scored by `scoreWeeklyCalendar` does, by
`scoreWeeklyCalendar_overall_pos`): (i) the first attempt meeting the
threshold is returned immediately; (ii) if no attempt meets the threshold
but at least one completed, the controller returns a completed attempt
with the highest aggregate — not an error. -/
theorem retry_returns_first_accepted_or_best_completed
    (attempts : List (Option WeeklyCalendar)) (minQ : ℚ)
    (hlen : attempts.length ≤ maxRetries)
    (hpos : ∀ cal ∈ attempts.filterMap id, 0 < cal.qualityScore.overall) :
    (∀ (i : ℕ) (cal : WeeklyCalendar), attempts[i]? = some (some cal) →
      meetsQualityThreshold cal.qualityScore minQ = true →
      (∀ (j : ℕ) (cal' : WeeklyCalendar), j < i → attempts[j]? = some (some cal') →
        meetsQualityThreshold cal'.qualityScore minQ = false) →
      generateWeeklyCalendar attempts minQ = Except.ok cal) ∧
    ((∀ cal ∈ attempts.filterMap id, meetsQualityThreshold cal.qualityScore minQ = false) →
      attempts.filterMap id ≠ [] →
      ∃ cal, generateWeeklyCalendar attempts minQ = Except.ok cal ∧
        cal ∈ attempts.filterMap id ∧
        ∀ cal' ∈ attempts.filterMap id,
          cal'.qualityScore.overall ≤ cal.qualityScore.overall) := by
  constructor
  · intro i cal hget hmeet hbefore
    exact generateWeeklyCalendarLoop_first_accepted minQ attempts 0 none i cal hget hmeet hbefore
  · intro hmeets hne
    have hloop := generateWeeklyCalendarLoop_no_accept minQ attempts 0 none hmeets
    rcases foldBest_spec (attempts.filterMap id) 0 none (by intro b hb; cases hb)
      with ⟨heq, hall⟩ | ⟨c, heq, hmem, _, hall⟩
    · exfalso
      obtain ⟨x, hx⟩ := List.exists_mem_of_ne_nil _ hne
      exact absurd (hall x hx) (not_le.2 (hpos x hx))
    · refine ⟨c, ?_, hmem, hall⟩
      show generateWeeklyCalendarLoop minQ attempts 0 none = Except.ok c
      rw [hloop, heq]

/-- Witness for C1: on the example attempts the controller returns a
completed attempt whose aggregate dominates all five (the 6.9 one), not an
error. -/
theorem retry_returns_first_accepted_or_best_completed_witness :
    ∃ cal, generateWeeklyCalendar exampleAttempts 7 = Except.ok cal ∧
      cal ∈ exampleAttempts.filterMap id ∧
      ∀ cal' ∈ exampleAttempts.filterMap id,
        cal'.qualityScore.overall ≤ cal.qualityScore.overall := by
  apply (retry_returns_first_accepted_or_best_completed exampleAttempts 7
    (by norm_num [exampleAttempts, maxRetries]) ?hpos).2 ?hmeets ?hne
  case hpos =>
    intro cal hcal
    simp only [exampleAttempts, filterMap_id_cons_some, List.filterMap_nil, List.mem_cons,
      List.not_mem_nil, or_false] at hcal
    rcases hcal with rfl | rfl | rfl | rfl | rfl <;>
      norm_num [mkScoredCal, placeholderQualityScore, mkFixtureCal]
  case hmeets =>
    intro cal hcal
    simp only [exampleAttempts, filterMap_id_cons_some, List.filterMap_nil, List.mem_cons,
      List.not_mem_nil, or_false] at hcal
    rcases hcal with rfl | rfl | rfl | rfl | rfl <;>
      · simp only [meetsQualityThreshold, mkScoredCal, placeholderQualityScore, mkFixtureCal]
        norm_num
  case hne => simp [exampleAttempts]

-- ============================================================================
-- C5: GenerationExhausted iff no attempt constructed; no commit on error
-- ============================================================================

/-- C5: the terminal generation-failed error is raised iff every attempt
failed during construction (given that completed attempts carry the score
`scoreWeeklyCalendar` produced for them, as the generator guarantees),
and when it is raised the state store is returned unchanged — nothing is
committed. -/
theorem generation_exhausted_iff_no_attempt_constructed
    (attempts : List (Option WeeklyCalendar)) (minQ : ℚ) (st : StateStore) (now : ℤ)
    (hscored : ∀ cal ∈ attempts.filterMap id,
      ∃ c0 s0, cal.qualityScore = scoreWeeklyCalendar c0 s0) :
    ((generateAndSaveCalendar attempts minQ st now).1 =
        Except.error GenError.generationFailed ↔ attempts.all (·.isNone) = true) ∧
    ((generateAndSaveCalendar attempts minQ st now).1 =
        Except.error GenError.generationFailed →
      (generateAndSaveCalendar attempts minQ st now).2 = st) := by
  have hpos : ∀ cal ∈ attempts.filterMap id, 0 < cal.qualityScore.overall := by
    intro cal hcal
    obtain ⟨c0, s0, hq⟩ := hscored cal hcal
    rw [hq]
    exact scoreWeeklyCalendar_overall_pos c0 s0
  have hmain : generateWeeklyCalendar attempts minQ =
      Except.error GenError.generationFailed ↔ attempts.all (·.isNone) = true := by
    constructor
    · intro herr
      rw [List.all_eq_true]
      by_contra hc
      push_neg at hc
      obtain ⟨a, ha, hanone⟩ := hc
      obtain ⟨cal0, rfl⟩ : ∃ c, a = some c := by
        cases a with
        | none => simp at hanone
        | some c => exact ⟨c, rfl⟩
      have hmem : cal0 ∈ attempts.filterMap id := by
        rw [List.mem_filterMap]
        exact ⟨some cal0, ha, rfl⟩
      obtain ⟨c, hok⟩ := generateWeeklyCalendarLoop_ok_of_pos minQ attempts 0 none
        (by intro h; exact absurd h (by norm_num))
        (Or.inl ⟨cal0, ha, hpos cal0 hmem⟩)
      rw [show generateWeeklyCalendar attempts minQ =
        generateWeeklyCalendarLoop minQ attempts 0 none from rfl, hok] at herr
      exact absurd herr (by simp)
    · intro hall
      apply generateWeeklyCalendarLoop_all_none
      intro a ha
      rw [List.all_eq_true] at hall
      simpa using hall a ha
  constructor
  · rcases hres : generateWeeklyCalendar attempts minQ with e | cal
    · cases e
      constructor
      · intro _
        exact hmain.1 hres
      · intro _
        show (generateAndSaveCalendar attempts minQ st now).1 = _
        unfold generateAndSaveCalendar
        rw [hres]
    · constructor
      · intro h1
        exfalso
        unfold generateAndSaveCalendar at h1
        rw [hres] at h1
        simp at h1
      · intro hall
        exfalso
        have := hmain.2 hall
        rw [hres] at this
        exact absurd this (by simp)
  · intro herr
    unfold generateAndSaveCalendar
    rcases hres : generateWeeklyCalendar attempts minQ with e | cal
    · rfl
    · exfalso
      unfold generateAndSaveCalendar at herr
      rw [hres] at herr
      simp at herr

/-- Witness for C5: with all 5 attempts failing construction the error is
raised and the state is unchanged. -/
theorem generation_exhausted_iff_no_attempt_constructed_witness :
    ((generateAndSaveCalendar [none, none, none, none, none] 7 emptyStateStore 0).1 =
        Except.error GenError.generationFailed ↔
      ([none, none, none, none, none] : List (Option WeeklyCalendar)).all (·.isNone) = true) ∧
    ((generateAndSaveCalendar [none, none, none, none, none] 7 emptyStateStore 0).1 =
        Except.error GenError.generationFailed →
      (generateAndSaveCalendar [none, none, none, none, none] 7 emptyStateStore 0).2 =
        emptyStateStore) :=
  generation_exhausted_iff_no_attempt_constructed [none, none, none, none, none] 7
    emptyStateStore 0 (by intro cal hcal; simp at hcal)

-- ============================================================================
-- Comment engine lemmas
-- ============================================================================

theorem mem_insertStable {α : Type} (le : α → α → Bool) (a x : α) :
    ∀ l : List α, x ∈ insertStable le a l ↔ x = a ∨ x ∈ l := by
  intro l
  induction l with
  | nil => simp [insertStable]
  | cons y ys ih =>
      unfold insertStable
      split_ifs
      · simp
      · rw [List.mem_cons, ih, List.mem_cons]
        tauto

theorem mem_stableSortBy {α : Type} (le : α → α → Bool) (x : α) :
    ∀ l : List α, x ∈ stableSortBy le l ↔ x ∈ l := by
  intro l
  induction l with
  | nil => simp [stableSortBy]
  | cons y ys ih =>
      unfold stableSortBy
      rw [mem_insertStable, ih, List.mem_cons]

/-- Every persona selected as a commenter is drawn from the pool that
excludes the post's author. -/
theorem selectCommenters_not_op (post : Post) (personas : List Persona)
    (level : EngagementLevel) (st : StateStore) (now : ℤ) :
    ∀ p ∈ selectCommenters post personas level st now,
      p.username ≠ post.author_username := by
  intro p hp
  unfold selectCommenters at hp
  dsimp only at hp
  obtain ⟨pair, hpair, rfl⟩ := List.mem_map.1 hp
  have hpair2 := List.mem_of_mem_take hpair
  rw [mem_stableSortBy] at hpair2
  obtain ⟨persona, hpersona, rfl⟩ := List.mem_map.1 hpair2
  have := List.of_mem_filter hpersona
  simpa using this

/-- Structural facts about one generated thread: every comment carries the
post's id; initial responses and additions are never authored by the post
author; every parent reference resolves inside the thread; and the
comment ids are exactly the consecutive counters from `counter`. -/
theorem generateCommentThread_spec (post : Post) (commenters : List Persona)
    (level : EngagementLevel) (counter : ℕ) (r : PostRand)
    (hc : ∀ p ∈ commenters, p.username ≠ post.author_username) :
    (∀ c ∈ generateCommentThread post commenters level counter r,
      c.post_id = post.post_id ∧
      ((c.metadata.role = "initial_response" ∨ c.metadata.role = "addition") →
        c.username ≠ post.author_username) ∧
      (∀ pid, c.parent_comment_id = some pid →
        pid ∈ (generateCommentThread post commenters level counter r).map (·.comment_id))) ∧
    (generateCommentThread post commenters level counter r).map (·.comment_id) =
      (List.range' counter
        (generateCommentThread post commenters level counter r).length).map
        (generateId "C") := by
  rcases commenters with _ | ⟨f, rest⟩
  · constructor
    · intro c hcm
      simp [generateCommentThread] at hcm
    · rfl
  have hf : f.username ≠ post.author_username := hc f (List.mem_cons_self _ _)
  rcases rest with _ | ⟨s, rest2⟩
  · by_cases hop : level.opShouldRespond
    · have hthread : generateCommentThread post [f] level counter r =
          [createInitialComment post f counter r.uT1,
           createOPEngagement post (createInitialComment post f counter r.uT1)
             post.author_username (counter + 1) r.uT3] := by
        simp [generateCommentThread, hop]
      rw [hthread]
      refine ⟨?_, rfl⟩
      intro c hcm
      rcases List.mem_cons.1 hcm with rfl | hcm
      · exact ⟨rfl, fun _ => hf, fun pid h => by simp [createInitialComment] at h⟩
      rcases List.mem_cons.1 hcm with rfl | hcm
      · refine ⟨rfl, ?_, ?_⟩
        · intro h
          rcases h with h | h <;> simp [createOPEngagement] at h
        · intro pid h
          rw [show (createOPEngagement post (createInitialComment post f counter r.uT1)
            post.author_username (counter + 1) r.uT3).parent_comment_id =
            some (createInitialComment post f counter r.uT1).comment_id from rfl] at h
          injection h with h
          subst h
          simp
      · simp at hcm
    · have hthread : generateCommentThread post [f] level counter r =
          [createInitialComment post f counter r.uT1] := by
        simp [generateCommentThread, hop]
      rw [hthread]
      refine ⟨?_, rfl⟩
      intro c hcm
      rcases List.mem_cons.1 hcm with rfl | hcm
      · exact ⟨rfl, fun _ => hf, fun pid h => by simp [createInitialComment] at h⟩
      · simp at hcm
  · have hs : s.username ≠ post.author_username := hc s (by simp)
    rcases hbase : rest2 with _ | ⟨t, rest3⟩
    · by_cases hop : level.opShouldRespond
      · have hthread : generateCommentThread post [f, s] level counter r =
            [createInitialComment post f counter r.uT1,
             createAgreementComment post (createInitialComment post f counter r.uT1) s
               (counter + 1) r.uT2,
             createOPEngagement post
               (createAgreementComment post (createInitialComment post f counter r.uT1) s
                 (counter + 1) r.uT2)
               post.author_username (counter + 2) r.uT3] := by
          simp [generateCommentThread, hop]
        rw [hthread]
        refine ⟨?_, rfl⟩
        intro c hcm
        rcases List.mem_cons.1 hcm with rfl | hcm
        · exact ⟨rfl, fun _ => hf, fun pid h => by simp [createInitialComment] at h⟩
        rcases List.mem_cons.1 hcm with rfl | hcm
        · refine ⟨rfl, ?_, ?_⟩
          · intro h
            rcases h with h | h <;> simp [createAgreementComment] at h
          · intro pid h
            rw [show (createAgreementComment post (createInitialComment post f counter r.uT1) s
              (counter + 1) r.uT2).parent_comment_id =
              some (createInitialComment post f counter r.uT1).comment_id from rfl] at h
            injection h with h
            subst h
            simp
        rcases List.mem_cons.1 hcm with rfl | hcm
        · refine ⟨rfl, ?_, ?_⟩
          · intro h
            rcases h with h | h <;> simp [createOPEngagement] at h
          · intro pid h
            rw [show (createOPEngagement post
              (createAgreementComment post (createInitialComment post f counter r.uT1) s
                (counter + 1) r.uT2)
              post.author_username (counter + 2) r.uT3).parent_comment_id =
              some (createAgreementComment post (createInitialComment post f counter r.uT1) s
                (counter + 1) r.uT2).comment_id from rfl] at h
            injection h with h
            subst h
            simp
        · simp at hcm
      · have hthread : generateCommentThread post [f, s] level counter r =
            [createInitialComment post f counter r.uT1,
             createAgreementComment post (createInitialComment post f counter r.uT1) s
               (counter + 1) r.uT2] := by
          simp [generateCommentThread, hop]
        rw [hthread]
        refine ⟨?_, rfl⟩
        intro c hcm
        rcases List.mem_cons.1 hcm with rfl | hcm
        · exact ⟨rfl, fun _ => hf, fun pid h => by simp [createInitialComment] at h⟩
        rcases List.mem_cons.1 hcm with rfl | hcm
        · refine ⟨rfl, ?_, ?_⟩
          · intro h
            rcases h with h | h <;> simp [createAgreementComment] at h
          · intro pid h
            rw [show (createAgreementComment post (createInitialComment post f counter r.uT1) s
              (counter + 1) r.uT2).parent_comment_id =
              some (createInitialComment post f counter r.uT1).comment_id from rfl] at h
            injection h with h
            subst h
            simp
        · simp at hcm
    · have ht : t.username ≠ post.author_username := hc t (by simp [hbase])
      by_cases hop : level.opShouldRespond <;>
        by_cases hadd : randomBoolean probAdditionalThread r.uAdditional
      · have hthread : generateCommentThread post (f :: s :: t :: rest3) level counter r =
            [createInitialComment post f counter r.uT1,
             createAgreementComment post (createInitialComment post f counter r.uT1) s
               (counter + 1) r.uT2,
             createOPEngagement post
               (createAgreementComment post (createInitialComment post f counter r.uT1) s
                 (counter + 1) r.uT2)
               post.author_username (counter + 2) r.uT3,
             createAdditionalComment post t (counter + 3) r.uT4] := by
          simp [generateCommentThread, hop, hadd]
        rw [hthread]
        refine ⟨?_, rfl⟩
        intro c hcm
        rcases List.mem_cons.1 hcm with rfl | hcm
        · exact ⟨rfl, fun _ => hf, fun pid h => by simp [createInitialComment] at h⟩
        rcases List.mem_cons.1 hcm with rfl | hcm
        · refine ⟨rfl, ?_, ?_⟩
          · intro h
            rcases h with h | h <;> simp [createAgreementComment] at h
          · intro pid h
            rw [show (createAgreementComment post (createInitialComment post f counter r.uT1) s
              (counter + 1) r.uT2).parent_comment_id =
              some (createInitialComment post f counter r.uT1).comment_id from rfl] at h
            injection h with h
            subst h
            simp
        rcases List.mem_cons.1 hcm with rfl | hcm
        · refine ⟨rfl, ?_, ?_⟩
          · intro h
            rcases h with h | h <;> simp [createOPEngagement] at h
          · intro pid h
            rw [show (createOPEngagement post
              (createAgreementComment post (createInitialComment post f counter r.uT1) s
                (counter + 1) r.uT2)
              post.author_username (counter + 2) r.uT3).parent_comment_id =
              some (createAgreementComment post (createInitialComment post f counter r.uT1) s
                (counter + 1) r.uT2).comment_id from rfl] at h
            injection h with h
            subst h
            simp
        rcases List.mem_cons.1 hcm with rfl | hcm
        · exact ⟨rfl, fun _ => ht, fun pid h => by simp [createAdditionalComment] at h⟩
        · simp at hcm
      · have hthread : generateCommentThread post (f :: s :: t :: rest3) level counter r =
            [createInitialComment post f counter r.uT1,
             createAgreementComment post (createInitialComment post f counter r.uT1) s
               (counter + 1) r.uT2,
             createOPEngagement post
               (createAgreementComment post (createInitialComment post f counter r.uT1) s
                 (counter + 1) r.uT2)
               post.author_username (counter + 2) r.uT3] := by
          simp [generateCommentThread, hop, hadd]
        rw [hthread]
        refine ⟨?_, rfl⟩
        intro c hcm
        rcases List.mem_cons.1 hcm with rfl | hcm
        · exact ⟨rfl, fun _ => hf, fun pid h => by simp [createInitialComment] at h⟩
        rcases List.mem_cons.1 hcm with rfl | hcm
        · refine ⟨rfl, ?_, ?_⟩
          · intro h
            rcases h with h | h <;> simp [createAgreementComment] at h
          · intro pid h
            rw [show (createAgreementComment post (createInitialComment post f counter r.uT1) s
              (counter + 1) r.uT2).parent_comment_id =
              some (createInitialComment post f counter r.uT1).comment_id from rfl] at h
            injection h with h
            subst h
            simp
        rcases List.mem_cons.1 hcm with rfl | hcm
        · refine ⟨rfl, ?_, ?_⟩
          · intro h
            rcases h with h | h <;> simp [createOPEngagement] at h
          · intro pid h
            rw [show (createOPEngagement post
              (createAgreementComment post (createInitialComment post f counter r.uT1) s
                (counter + 1) r.uT2)
              post.author_username (counter + 2) r.uT3).parent_comment_id =
              some (createAgreementComment post (createInitialComment post f counter r.uT1) s
                (counter + 1) r.uT2).comment_id from rfl] at h
            injection h with h
            subst h
            simp
        · simp at hcm
      · have hthread : generateCommentThread post (f :: s :: t :: rest3) level counter r =
            [createInitialComment post f counter r.uT1,
             createAgreementComment post (createInitialComment post f counter r.uT1) s
               (counter + 1) r.uT2,
             createAdditionalComment post t (counter + 2) r.uT4] := by
          simp [generateCommentThread, hop, hadd]
        rw [hthread]
        refine ⟨?_, rfl⟩
        intro c hcm
        rcases List.mem_cons.1 hcm with rfl | hcm
        · exact ⟨rfl, fun _ => hf, fun pid h => by simp [createInitialComment] at h⟩
        rcases List.mem_cons.1 hcm with rfl | hcm
        · refine ⟨rfl, ?_, ?_⟩
          · intro h
            rcases h with h | h <;> simp [createAgreementComment] at h
          · intro pid h
            rw [show (createAgreementComment post (createInitialComment post f counter r.uT1) s
              (counter + 1) r.uT2).parent_comment_id =
              some (createInitialComment post f counter r.uT1).comment_id from rfl] at h
            injection h with h
            subst h
            simp
        rcases List.mem_cons.1 hcm with rfl | hcm
        · exact ⟨rfl, fun _ => ht, fun pid h => by simp [createAdditionalComment] at h⟩
        · simp at hcm
      · have hthread : generateCommentThread post (f :: s :: t :: rest3) level counter r =
            [createInitialComment post f counter r.uT1,
             createAgreementComment post (createInitialComment post f counter r.uT1) s
               (counter + 1) r.uT2] := by
          simp [generateCommentThread, hop, hadd]
        rw [hthread]
        refine ⟨?_, rfl⟩
        intro c hcm
        rcases List.mem_cons.1 hcm with rfl | hcm
        · exact ⟨rfl, fun _ => hf, fun pid h => by simp [createInitialComment] at h⟩
        rcases List.mem_cons.1 hcm with rfl | hcm
        · refine ⟨rfl, ?_, ?_⟩
          · intro h
            rcases h with h | h <;> simp [createAgreementComment] at h
          · intro pid h
            rw [show (createAgreementComment post (createInitialComment post f counter r.uT1) s
              (counter + 1) r.uT2).parent_comment_id =
              some (createInitialComment post f counter r.uT1).comment_id from rfl] at h
            injection h with h
            subst h
            simp
        · simp at hcm

-- ============================================================================
-- Injectivity of the comment id encoding
-- ============================================================================

theorem natDigitsAux_lt : ∀ (f n : ℕ), ∀ d ∈ natDigitsAux f n, d < 10 := by
  intro f
  induction f with
  | zero => intro n d hd; simp [natDigitsAux] at hd
  | succ f ih =>
      intro n d hd
      unfold natDigitsAux at hd
      split_ifs at hd with h
      · rw [List.mem_singleton] at hd
        omega
      · rcases List.mem_append.1 hd with hd | hd
        · exact ih _ d hd
        · rw [List.mem_singleton] at hd
          omega

theorem digitsVal_append_singleton (l : List ℕ) (d : ℕ) :
    digitsVal (l ++ [d]) = 10 * digitsVal l + d := by
  unfold digitsVal
  rw [List.foldl_append]
  rfl

theorem natDigitsAux_val : ∀ (f n : ℕ), n < 10 ^ f → digitsVal (natDigitsAux f n) = n := by
  intro f
  induction f with
  | zero =>
      intro n hn
      have : n = 0 := by simpa using hn
      subst this
      rfl
  | succ f ih =>
      intro n hn
      unfold natDigitsAux
      split_ifs with h
      · show digitsVal [n] = n
        unfold digitsVal
        simp
      · rw [digitsVal_append_singleton, ih (n / 10) (by
          rw [Nat.div_lt_iff_lt_mul (by norm_num)]
          calc n < 10 ^ (f + 1) := hn
          _ = 10 ^ f * 10 := by ring)]
        omega

theorem digitChar_inj : ∀ d1, d1 < 10 → ∀ d2, d2 < 10 →
    digitChar d1 = digitChar d2 → d1 = d2 := by decide

theorem map_digitChar_inj : ∀ (l1 l2 : List ℕ), (∀ d ∈ l1, d < 10) → (∀ d ∈ l2, d < 10) →
    l1.map digitChar = l2.map digitChar → l1 = l2 := by
  intro l1
  induction l1 with
  | nil =>
      intro l2 _ _ h
      cases l2 with
      | nil => rfl
      | cons b bs => simp at h
  | cons a as ih =>
      intro l2 h1 h2 h
      cases l2 with
      | nil => simp at h
      | cons b bs =>
          simp only [List.map_cons, List.cons.injEq] at h
          have ha : a = b := digitChar_inj a (h1 a (by simp)) b (h2 b (by simp)) h.1
          rw [ha, ih bs (fun d hd => h1 d (by simp [hd]))
            (fun d hd => h2 d (by simp [hd])) h.2]

theorem natRepr_injective : Function.Injective natRepr := by
  intro m n h
  unfold natRepr at h
  have hdata : (natDigitsAux (m + 1) m).map digitChar =
      (natDigitsAux (n + 1) n).map digitChar := congrArg String.data h
  have hdig : natDigitsAux (m + 1) m = natDigitsAux (n + 1) n :=
    map_digitChar_inj _ _ (natDigitsAux_lt _ _) (natDigitsAux_lt _ _) hdata
  have hm : m < 10 ^ (m + 1) := by
    calc m < 10 ^ m := Nat.lt_pow_self (by norm_num) m
    _ ≤ 10 ^ (m + 1) := Nat.pow_le_pow_right (by norm_num) (by omega)
  have hn : n < 10 ^ (n + 1) := by
    calc n < 10 ^ n := Nat.lt_pow_self (by norm_num) n
    _ ≤ 10 ^ (n + 1) := Nat.pow_le_pow_right (by norm_num) (by omega)
  calc m = digitsVal (natDigitsAux (m + 1) m) := (natDigitsAux_val _ _ hm).symm
  _ = digitsVal (natDigitsAux (n + 1) n) := by rw [hdig]
  _ = n := natDigitsAux_val _ _ hn

theorem generateId_injective (pre : String) : Function.Injective (generateId pre) := by
  intro m n h
  unfold generateId at h
  have : (pre ++ natRepr m).data = (pre ++ natRepr n).data := congrArg String.data h
  rw [String.data_append, String.data_append] at this
  have hrepr : (natRepr m).data = (natRepr n).data := List.append_cancel_left this
  exact natRepr_injective (by
    cases hm : natRepr m
    cases hn : natRepr n
    rw [hm, hn] at hrepr
    simp at hrepr
    rw [hrepr])

-- ============================================================================
-- Batch-level comment generation lemmas
-- ============================================================================

theorem generateCommentsAux_cons (personas : List Persona) (st : StateStore)
    (rand : ℕ → PostRand) (now : ℤ) (post : Post) (rest : List Post) (idx counter : ℕ) :
    generateCommentsAux personas st rand now (post :: rest) idx counter =
      if shouldHaveEngagement post st (rand idx).uEngage then
        (generateCommentThread post
          (selectCommenters post personas (determineEngagementLevel (rand idx)) st now)
          (determineEngagementLevel (rand idx)) counter (rand idx)) ++
        generateCommentsAux personas st rand now rest (idx + 1)
          (counter + (generateCommentThread post
            (selectCommenters post personas (determineEngagementLevel (rand idx)) st now)
            (determineEngagementLevel (rand idx)) counter (rand idx)).length)
      else generateCommentsAux personas st rand now rest (idx + 1) counter := rfl

theorem generateCommentsAux_ids (personas : List Persona) (st : StateStore)
    (rand : ℕ → PostRand) (now : ℤ) :
    ∀ (posts : List Post) (idx counter : ℕ), ∃ ns : List ℕ,
      (generateCommentsAux personas st rand now posts idx counter).map (·.comment_id) =
        ns.map (generateId "C") ∧ ns.Pairwise (· < ·) ∧ ∀ n ∈ ns, counter ≤ n := by
  intro posts
  induction posts with
  | nil => intro idx counter; exact ⟨[], rfl, List.Pairwise.nil, by simp⟩
  | cons post rest ih =>
      intro idx counter
      rw [generateCommentsAux_cons]
      by_cases heng : shouldHaveEngagement post st (rand idx).uEngage
      · rw [if_pos heng]
        obtain ⟨-, hids⟩ := generateCommentThread_spec post
          (selectCommenters post personas (determineEngagementLevel (rand idx)) st now)
          (determineEngagementLevel (rand idx)) counter (rand idx)
          (selectCommenters_not_op post personas (determineEngagementLevel (rand idx)) st now)
        obtain ⟨ns', hmap', hpw', hge'⟩ := ih (idx + 1)
          (counter + (generateCommentThread post
            (selectCommenters post personas (determineEngagementLevel (rand idx)) st now)
            (determineEngagementLevel (rand idx)) counter (rand idx)).length)
        refine ⟨List.range' counter (generateCommentThread post
            (selectCommenters post personas (determineEngagementLevel (rand idx)) st now)
            (determineEngagementLevel (rand idx)) counter (rand idx)).length ++ ns',
          ?_, ?_, ?_⟩
        · rw [List.map_append, hids, List.map_append]
          rw [hmap']
        · rw [List.pairwise_append]
          refine ⟨List.pairwise_lt_range' _ _, hpw', ?_⟩
          intro a ha b hb
          have h1 := (List.mem_range'_1.1 ha).2
          exact lt_of_lt_of_le h1 (hge' b hb)
        · intro n hn
          rcases List.mem_append.1 hn with hn | hn
          · exact (List.mem_range'_1.1 hn).1
          · exact le_trans (by omega) (hge' n hn)
      · rw [if_neg heng]
        exact ih (idx + 1) counter

theorem generateCommentsAux_struct (personas : List Persona) (st : StateStore)
    (rand : ℕ → PostRand) (now : ℤ) :
    ∀ (posts : List Post) (idx counter : ℕ),
    ∀ c ∈ generateCommentsAux personas st rand now posts idx counter,
      (∃ post ∈ posts, c.post_id = post.post_id ∧
        ((c.metadata.role = "initial_response" ∨ c.metadata.role = "addition") →
          c.username ≠ post.author_username)) ∧
      (∀ pid, c.parent_comment_id = some pid →
        pid ∈ (generateCommentsAux personas st rand now posts idx counter).map
          (·.comment_id)) := by
  intro posts
  induction posts with
  | nil =>
      intro idx counter c hcm
      simp [generateCommentsAux] at hcm
  | cons post rest ih =>
      intro idx counter c hcm
      rw [generateCommentsAux_cons] at hcm ⊢
      by_cases heng : shouldHaveEngagement post st (rand idx).uEngage
      · rw [if_pos heng] at hcm ⊢
        obtain ⟨hstruct, -⟩ := generateCommentThread_spec post
          (selectCommenters post personas (determineEngagementLevel (rand idx)) st now)
          (determineEngagementLevel (rand idx)) counter (rand idx)
          (selectCommenters_not_op post personas (determineEngagementLevel (rand idx)) st now)
        rcases List.mem_append.1 hcm with hth | hrest
        · obtain ⟨hpid, hrole, hpar⟩ := hstruct c hth
          refine ⟨⟨post, List.mem_cons_self _ _, hpid, hrole⟩, ?_⟩
          intro pid hp
          rw [List.map_append]
          exact List.mem_append_left _ (hpar pid hp)
        · obtain ⟨⟨post', hpost', hpid', hrole'⟩, hpar'⟩ := ih (idx + 1)
            (counter + (generateCommentThread post
              (selectCommenters post personas (determineEngagementLevel (rand idx)) st now)
              (determineEngagementLevel (rand idx)) counter (rand idx)).length) c hrest
          refine ⟨⟨post', List.mem_cons_of_mem _ hpost', hpid', hrole'⟩, ?_⟩
          intro pid hp
          rw [List.map_append]
          exact List.mem_append_right _ (hpar' pid hp)
      · rw [if_neg heng] at hcm ⊢
        obtain ⟨⟨post', hpost', hpid', hrole'⟩, hpar'⟩ := ih (idx + 1) counter c hcm
        exact ⟨⟨post', List.mem_cons_of_mem _ hpost', hpid', hrole'⟩, hpar'⟩

-- ============================================================================
-- C7: thread structural integrity
-- ============================================================================

/-- C7: for every batch the comment engine generates (over any personas,
state and random draws), if the input posts have pairwise-distinct ids,
then every `initial_response` comment and every unparented `addition`
comment is authored by someone other than its post's author, and every
non-null `parent_comment_id` references a comment id present in the same
batch. -/
theorem comment_thread_structural_integrity (posts : List Post) (personas : List Persona)
    (st : StateStore) (rand : ℕ → PostRand) (now : ℤ)
    (hpid : (posts.map (·.post_id)).Nodup) :
    (∀ post ∈ posts, ∀ c ∈ generateComments posts personas st rand now,
      c.post_id = post.post_id →
      (c.metadata.role = "initial_response" ∨
        (c.metadata.role = "addition" ∧ c.parent_comment_id = none)) →
      c.username ≠ post.author_username) ∧
    (∀ c ∈ generateComments posts personas st rand now, ∀ pid,
      c.parent_comment_id = some pid →
      pid ∈ (generateComments posts personas st rand now).map (·.comment_id)) := by
  constructor
  · intro post hpost c hcm hcpid hrole
    obtain ⟨⟨post', hpost', hpid', hrole'⟩, -⟩ :=
      generateCommentsAux_struct personas st rand now posts 0 1 c hcm
    have heq : post' = post := by
      apply List.inj_on_of_nodup_map hpid hpost' hpost
      rw [← hpid', hcpid]
    subst heq
    apply hrole'
    rcases hrole with h | h
    · exact Or.inl h
    · exact Or.inr h.1
  · intro c hcm pid hp
    obtain ⟨-, hpar⟩ := generateCommentsAux_struct personas st rand now posts 0 1 c hcm
    exact hpar pid hp

/-- Witness for C7: a single-post batch with distinct post ids. -/
theorem comment_thread_structural_integrity_witness :
    (∀ post ∈ [mkFixturePost "P1" "r/startups" "t"],
      ∀ c ∈ generateComments [mkFixturePost "P1" "r/startups" "t"] [] emptyStateStore
        (fun _ => ⟨0, 0, 0, 0, 0, 0, 0, 0, 0, 0⟩) 0,
      c.post_id = post.post_id →
      (c.metadata.role = "initial_response" ∨
        (c.metadata.role = "addition" ∧ c.parent_comment_id = none)) →
      c.username ≠ post.author_username) ∧
    (∀ c ∈ generateComments [mkFixturePost "P1" "r/startups" "t"] [] emptyStateStore
        (fun _ => ⟨0, 0, 0, 0, 0, 0, 0, 0, 0, 0⟩) 0, ∀ pid,
      c.parent_comment_id = some pid →
      pid ∈ (generateComments [mkFixturePost "P1" "r/startups" "t"] [] emptyStateStore
        (fun _ => ⟨0, 0, 0, 0, 0, 0, 0, 0, 0, 0⟩) 0).map (·.comment_id)) :=
  comment_thread_structural_integrity [mkFixturePost "P1" "r/startups" "t"] [] emptyStateStore
    (fun _ => ⟨0, 0, 0, 0, 0, 0, 0, 0, 0, 0⟩) 0 (by decide)

-- ============================================================================
-- C10: comment ids are pairwise distinct
-- ============================================================================

/-- C10: all comment ids produced by one invocation of the comment
generator are pairwise distinct — each id is the prefix "C" followed by a
strictly increasing counter threaded through all threads — so parent
references within a batch are unambiguous. -/
theorem comment_ids_pairwise_distinct (posts : List Post) (personas : List Persona)
    (st : StateStore) (rand : ℕ → PostRand) (now : ℤ) :
    ((generateComments posts personas st rand now).map (·.comment_id)).Nodup ∧
    ∀ c ∈ generateComments posts personas st rand now,
      ∃ k, c.comment_id = generateId "C" k := by
  obtain ⟨ns, hmap, hpw, -⟩ := generateCommentsAux_ids personas st rand now posts 0 1
  constructor
  · show ((generateCommentsAux personas st rand now posts 0 1).map (·.comment_id)).Nodup
    rw [hmap]
    exact List.Nodup.map (generateId_injective "C") (hpw.imp (fun h => ne_of_lt h))
  · intro c hcm
    have : c.comment_id ∈ (generateCommentsAux personas st rand now posts 0 1).map
        (·.comment_id) := List.mem_map_of_mem _ hcm
    rw [hmap] at this
    obtain ⟨k, _, hk⟩ := List.mem_map.1 this
    exact ⟨k, hk.symm⟩
